import Mathlib

/-! BabelTrace sequence type converter (`types/sequence.c`).

A shallow embedding of `sequence_rw`, `_sequence_definition_new`,
`sequence_len` and `sequence_index`, and the properties proved about them.

Conventions of the embedding.

* A C pointer that may be `NULL` is an `Option`.
* An object reached through a pointer is embedded as the value it holds when
  the function is entered or left; a function that mutates it returns the new value.
* The element kind's `definition_new` and the dispatcher `generic_rw` are
  function pointers whose targets are outside `sequence.c`. They are taken as
  parameters (`Env`). Everything they can read or change (the stream position
  `pos`, the child definition objects, the scopes the children register in) is
  the world `σ`, threaded through the calls in program order. Child definitions
  are handles of type `δ` (the `struct definition *` values).
* `uint64_t` values are natural numbers. The only arithmetic `sequence.c`
  performs on them is `i++` under `i < len`, which cannot wrap. The conversions
  of `i` to the `int index` parameter of `definition_new` and of `len` to the
  `gint length` parameter of `g_ptr_array_set_size` are made explicit.
* `assert` is taken as enabled: a failed assertion ends the run (`Fault`).
* `GPtrArray` is a list of nullable handles whose length is `elems->len`; a
  store into a slot the array does not have is a `Fault`.
-/

namespace Babeltrace

/-! ## Data model -/

/-- An interned string. `none` is the quark `0`, which glib gives to `NULL`. -/
abbrev GQuark := Option String

/-- Ways a run ends without returning to its caller. -/
inductive Fault where
  | null_pointer_dereference
  | assertion_failure
  | out_of_bounds_store
  deriving DecidableEq, Repr

/-- Modelled from the spec: the kind tags of the dispatcher (spec 4.5); the enum
itself is declared outside `sequence.c`. -/
inductive ctf_type_id where
  | CTF_TYPE_INTEGER
  | CTF_TYPE_FLOAT
  | CTF_TYPE_ENUM
  | CTF_TYPE_STRING
  | CTF_TYPE_STRUCT
  | CTF_TYPE_VARIANT
  | CTF_TYPE_ARRAY
  | CTF_TYPE_SEQUENCE
  deriving DecidableEq, Repr

/-- Text encodings of an integer declaration, as tested at lines 164-165. -/
inductive ctf_string_encoding where
  | CTF_STRING_NONE
  | CTF_STRING_UTF8
  | CTF_STRING_ASCII
  deriving DecidableEq, Repr

/-- The value of `CHAR_BIT` (lines 169-170). -/
def CHAR_BIT : Nat := 8

/-- The value of `INT_MAX` (line 135) for a 32-bit `int`. -/
def INT_MAX : Int := 2147483647

/-- The fields of `struct declaration_integer` that `sequence.c` reads. -/
structure declaration_integer where
  len : Nat
  signedness : Bool
  encoding : ctf_string_encoding
  deriving DecidableEq, Repr

/-- What `container_of` reaches from a `struct declaration *`: the kind tag
`id` together with the enclosing kind-specific object. -/
inductive declaration_kind where
  | integer (d : declaration_integer)
  | float
  | enum
  | string
  | struct
  | variant
  | array
  | sequence
  deriving DecidableEq, Repr

/-- The base `struct declaration`: alignment in bits, reference count, kind. -/
structure declaration where
  alignment : Nat
  ref : Int
  kind : declaration_kind
  deriving DecidableEq, Repr

/-- The field `declaration->id`. -/
def declaration.id (d : declaration) : ctf_type_id :=
  match d.kind with
  | .integer _ => .CTF_TYPE_INTEGER
  | .float => .CTF_TYPE_FLOAT
  | .enum => .CTF_TYPE_ENUM
  | .string => .CTF_TYPE_STRING
  | .struct => .CTF_TYPE_STRUCT
  | .variant => .CTF_TYPE_VARIANT
  | .array => .CTF_TYPE_ARRAY
  | .sequence => .CTF_TYPE_SEQUENCE

/-- Modelled from the spec: a definition scope (spec 3, 4.1), a registry from
field name to definition. A registered definition is recorded by its address.
`scope_path` is the path handed to `lookup_path_definition` (line 142). The
non-owning parent back-link is not represented: no function of `sequence.c`
follows it. -/
structure definition_scope where
  definitions : List (GQuark × Nat)
  scope_path : List GQuark
  deriving DecidableEq, Repr

/-- The `struct declaration_sequence` of lines 96-110: base, length-field path,
element declaration. -/
structure declaration_sequence where
  p : declaration
  length_name : List GQuark
  elem : declaration
  deriving DecidableEq, Repr

/-- The fields of `struct definition_integer` that `sequence.c` reads:
`p.ref`, `declaration` and `value._unsigned`. -/
structure definition_integer where
  ref : Int
  declaration : declaration_integer
  value_unsigned : Nat
  deriving DecidableEq, Repr

/-- The base `struct definition` as filled in at lines 128-138.
`p.declaration` is the same object as `definition_sequence.declaration`. -/
structure definition where
  ref : Int
  index : Int
  name : GQuark
  path : GQuark
  scope : definition_scope
  deriving DecidableEq, Repr

/-- A `GPtrArray` of child definitions: its length is `elems->len`, a slot
holds a child handle or `NULL`. -/
abbrev GPtrArray (δ : Type) := List (Option δ)

/-- The `struct definition_sequence`: `length` is the resolved length field,
`string` the `GString` (or `NULL`), `elems` the child list (or `NULL`). -/
structure definition_sequence (δ : Type) where
  p : definition
  declaration : declaration_sequence
  length : definition_integer
  string : Option String
  elems : Option (GPtrArray δ)

/-! ## glib -/

/-- Conversion of a `uint64_t` to a 32-bit `int`: the `int index` parameter of
`definition_new` and the `gint length` parameter of `g_ptr_array_set_size`. -/
def int_of_uint64 (i : Nat) : Int :=
  if i % 4294967296 < 2147483648 then ((i % 4294967296 : Nat) : Int)
  else ((i % 4294967296 : Nat) : Int) - 4294967296

/-- The function `g_ptr_array_set_size(array, gint length)` of glib: a negative
`length` is refused and the array is left as it is; otherwise the array is cut to
`length` slots, or padded with `NULL` slots up to `length`. -/
def g_ptr_array_set_size {δ : Type} (array : GPtrArray δ) (length : Int) : GPtrArray δ :=
  if length < 0 then array
  else array.take length.toNat ++ List.replicate (length.toNat - array.length) none

/-- The function `g_quark_from_string`: the quark of a string, `0` for `NULL`. -/
def g_quark_from_string (s : Option String) : GQuark := s

/-- The text `g_string_printf(str, "[%" PRIu64 "]", i)` leaves in `str`. -/
def g_string_printf_index (i : Nat) : String := "[" ++ toString i ++ "]"

/-! ## Collaborators of `sequence_rw` -/

/-- The code outside `sequence.c` that `sequence_rw` calls.

* `definition_new elem scope name index root_name` is
  `elem->definition_new(elem, scope, name, index, root_name)`; it returns the
  new child (or `NULL`).
* `generic_rw field` is `generic_rw(pos, field)`; it returns the `int` status.
* `str_after_free s` is what `str->str` reads as once `g_string_free(str, TRUE)`
  has released a string that held `s` (lines 62-63): the contents of released
  memory are not fixed by the program, `none` stands for a `NULL` pointer. -/
structure Env (σ δ : Type) where
  definition_new : declaration → definition_scope → GQuark → Int → Option String → σ → Option δ × σ
  generic_rw : Option δ → σ → Int × σ
  str_after_free : String → Option String

/-- State of the loop of `sequence_rw`: the status of the last `generic_rw`,
the world, and the child list. -/
structure rw_state (σ δ : Type) where
  ret : Int
  world : σ
  elems : GPtrArray δ

/-- What the loop of `sequence_rw` ends with: the status it returns (or the
fault), the world, and the child list. -/
structure rw_loop_state (σ δ : Type) where
  ret : Except Fault Int
  world : σ
  elems : GPtrArray δ

/-- What `sequence_rw` leaves behind: the returned status (or the fault), the
world, and the sequence definition. -/
structure rw_result (σ δ : Type) where
  ret : Except Fault Int
  world : σ
  definition : definition_sequence δ

/-! ## `sequence_rw` (lines 33-74) -/

/-- One pass through the body of the `for` loop, lines 56-69, at index `i`, the
slot `i` being in the array. -/
def sequence_rw_body {σ δ : Type} (env : Env σ δ) (d : definition_sequence δ)
    (i : Nat) (w : σ) (elems : GPtrArray δ) : rw_state σ δ :=
  -- str = g_string_new(""); g_string_printf(str, "[%" PRIu64 "]", i);
  let str := g_string_printf_index i
  -- (void) g_string_free(str, TRUE); name = g_quark_from_string(str->str);
  let name := g_quark_from_string (env.str_after_free str)
  -- *field = elem->definition_new(elem, p.scope, name, i, NULL);
  let r := env.definition_new d.declaration.elem d.p.scope name (int_of_uint64 i) none w
  let elems1 := elems.set i r.1
  -- ret = generic_rw(pos, *field);
  let g := env.generic_rw r.1 r.2
  { ret := g.1, world := g.2, elems := elems1 }

/-- The loop `for (i = oldlen; i < len; i++)` of lines 55-72, with `n = len - i`
passes left. It stops at the first non-zero status. When the slot `i` is not in
the array (`i ≥ elems->len`), the store of line 66, made once `definition_new`
has returned, falls outside the array. -/
def sequence_rw_loop {σ δ : Type} (env : Env σ δ) (d : definition_sequence δ) :
    Nat → Nat → σ → GPtrArray δ → rw_loop_state σ δ
  | 0, _, w, elems => { ret := .ok 0, world := w, elems := elems }
  | n + 1, i, w, elems =>
    if i < elems.length then
      let s := sequence_rw_body env d i w elems
      if s.ret ≠ 0 then { ret := .ok s.ret, world := s.world, elems := s.elems }
      else sequence_rw_loop env d n (i + 1) s.world s.elems
    else
      { ret := .error .out_of_bounds_store
        world := (env.definition_new d.declaration.elem d.p.scope
          (g_quark_from_string (env.str_after_free (g_string_printf_index i)))
          (int_of_uint64 i) none w).2
        elems := elems }

/-- The function `sequence_rw` (lines 33-74). -/
def sequence_rw {σ δ : Type} (env : Env σ δ) (pos : σ) (d : definition_sequence δ) :
    rw_result σ δ :=
  let len := d.length.value_unsigned
  match d.elems with
  | none =>
    -- oldlen = sequence_definition->elems->len with elems == NULL
    { ret := .error .null_pointer_dereference, world := pos, definition := d }
  | some elems =>
    let oldlen := elems.length
    -- if (oldlen < len) g_ptr_array_set_size(sequence_definition->elems, len);
    let elems1 := if oldlen < len then g_ptr_array_set_size elems (int_of_uint64 len) else elems
    let s := sequence_rw_loop env d (len - oldlen) oldlen pos elems1
    { ret := s.ret, world := s.world, definition := { d with elems := some s.elems } }

/-! ## Collaborators of `_sequence_definition_new` -/

/-- Modelled from the spec: `declaration_ref` (spec 6, reference-counting
capability `ref`); its body is outside `sequence.c`. -/
def declaration_ref (d : declaration) : declaration := { d with ref := d.ref + 1 }

/-- Modelled from the spec: `declaration_unref` (spec 6, `unref`); the release
of the object when the count reaches zero is not represented. -/
def declaration_unref (d : declaration) : declaration := { d with ref := d.ref - 1 }

/-- Modelled from the spec: `definition_ref` (spec 6, `ref`) on the length field. -/
def definition_ref (d : definition_integer) : definition_integer := { d with ref := d.ref + 1 }

/-- Modelled from the spec: `lookup_field_definition_scope`, whether a field name
is registered in a scope (spec 4.1, "at most once each"). -/
def definition_scope.registered (scope : definition_scope) (field_name : GQuark) : Bool :=
  scope.definitions.any (fun e => e.1 == field_name)

/-- Modelled from the spec: `register_field_definition`, spec 4.1
`register(name, definition, scope) → success | DuplicateName`. Its body is outside
`sequence.c`. Success is `0` and adds the entry; a duplicate name is the non-zero
status `-1` and leaves the scope as it is. -/
def register_field_definition (field_name : GQuark) (definition : Nat)
    (scope : definition_scope) : Int × definition_scope :=
  if scope.registered field_name then (-1, scope)
  else (0, { scope with definitions := scope.definitions ++ [(field_name, definition)] })

/-- The scope functions `_sequence_definition_new` calls whose bodies are outside
`sequence.c` and whose results the spec does not fix: they are parameters.
`lookup_path_definition scope_path length_name parent_scope` is the resolved
length field, viewed through `container_of` as an integer definition, or `NULL`. -/
structure scope_ops where
  new_definition_path : definition_scope → GQuark → Option String → GQuark
  new_definition_scope : definition_scope → GQuark → Option String → definition_scope
  lookup_path_definition : List GQuark → List GQuark → definition_scope → Option definition_integer

/-- What a returning call of `_sequence_definition_new` leaves behind: the
returned pointer, the shared declaration, the parent scope, the scope handed to
`free_definition_scope` (if any), and the resolved length field (if any). -/
structure definition_new_result (δ : Type) where
  ret : Option (definition_sequence δ)
  declaration : declaration_sequence
  parent_scope : definition_scope
  freed_scope : Option definition_scope
  len_parent : Option definition_integer

/-! ## `_sequence_definition_new` (lines 114-184) -/

/-- The block at the label `error` (lines 179-183): the nested scope is handed
to `free_definition_scope`, the declaration reference is dropped, the new
object is released and `NULL` is returned. -/
def sequence_definition_new_error {δ : Type} (sequence_declaration : declaration_sequence)
    (parent_scope : definition_scope) (scope : definition_scope)
    (len_parent : Option definition_integer) : definition_new_result δ :=
  { ret := none
    declaration := { sequence_declaration with p := declaration_unref sequence_declaration.p }
    parent_scope := parent_scope
    freed_scope := some scope
    len_parent := len_parent }

/-- Lines 157-176: the `string` and `elems` fields chosen from the element
declaration. -/
def sequence_storage {δ : Type} (elem : declaration) : Option String × Option (GPtrArray δ) :=
  -- sequence->string = NULL; sequence->elems = NULL;
  match elem.kind with
  | .integer integer_declaration =>
    if integer_declaration.encoding = .CTF_STRING_UTF8
        ∨ integer_declaration.encoding = .CTF_STRING_ASCII then
      -- sequence->string = g_string_new("");
      if integer_declaration.len = CHAR_BIT ∧ elem.alignment = CHAR_BIT then
        (some "", none)
      else
        -- sequence->elems = g_ptr_array_new();
        (some "", some [])
    else (none, some [])
  | _ => (none, some [])

/-- The function `_sequence_definition_new`. `sequence` is the address `g_new`
returned for the new object. -/
def _sequence_definition_new {δ : Type} (ops : scope_ops) (sequence : Nat)
    (declaration : declaration_sequence) (parent_scope : definition_scope)
    (field_name : GQuark) (index : Int) (root_name : Option String) :
    Except Fault (definition_new_result δ) :=
  -- declaration_ref(&sequence_declaration->p);
  let sequence_declaration : declaration_sequence :=
    { declaration with p := declaration_ref declaration.p }
  -- sequence->p.ref = 1; p.index; p.name; p.path; p.scope
  let p : definition :=
    { ref := 1
      index := if root_name.isSome then INT_MAX else index
      name := field_name
      path := ops.new_definition_path parent_scope field_name root_name
      scope := ops.new_definition_scope parent_scope field_name root_name }
  -- ret = register_field_definition(field_name, &sequence->p, parent_scope);
  let reg := register_field_definition field_name sequence parent_scope
  -- assert(!ret);
  if reg.1 ≠ 0 then .error .assertion_failure
  else
    match ops.lookup_path_definition p.scope.scope_path
        sequence_declaration.length_name reg.2 with
    | none =>
      -- goto error
      .ok (sequence_definition_new_error sequence_declaration reg.2 p.scope none)
    | some len_parent =>
      if len_parent.declaration.signedness then
        -- goto error
        .ok (sequence_definition_new_error sequence_declaration reg.2 p.scope (some len_parent))
      else
        -- definition_ref(len_parent);
        let length := definition_ref len_parent
        let storage : Option String × Option (GPtrArray δ) :=
          sequence_storage sequence_declaration.elem
        .ok { ret := some { p := p, declaration := sequence_declaration, length := length,
                            string := storage.1, elems := storage.2 }
              declaration := sequence_declaration
              parent_scope := reg.2
              freed_scope := none
              len_parent := some length }

/-! ## `sequence_len` and `sequence_index` (lines 211-224) -/

/-- The function `sequence_len`. -/
def sequence_len {δ : Type} (sequence : definition_sequence δ) : Nat :=
  sequence.length.value_unsigned

/-- The function `sequence_index`: the returned pointer, or the failed assertion. -/
def sequence_index {δ : Type} (sequence : definition_sequence δ) (i : Nat) :
    Except Fault (Option δ) :=
  match sequence.elems with
  | none => .ok none
  | some elems =>
    if i ≥ sequence.length.value_unsigned then .ok none
    else if h : i < elems.length then .ok (elems.get ⟨i, h⟩)
    else .error .assertion_failure

/-- The length field `_sequence_definition_new` resolves: the result of the
call of line 142, made on the parent scope as registration left it. -/
def resolved_length (ops : scope_ops) (sequence : Nat) (declaration : declaration_sequence)
    (parent_scope : definition_scope) (field_name : GQuark) (root_name : Option String) :
    Option definition_integer :=
  ops.lookup_path_definition
    (ops.new_definition_scope parent_scope field_name root_name).scope_path
    declaration.length_name
    (register_field_definition field_name sequence parent_scope).2

/-- The field `elems->len` of a definition, `0` when there is no child list. -/
def elems_len {δ : Type} (d : definition_sequence δ) : Nat :=
  match d.elems with
  | none => 0
  | some elems => elems.length

/-- The definition once the length field it refers to has been given the value `L`
(the length field is decoded before the sequence). -/
def with_length {δ : Type} (d : definition_sequence δ) (L : Nat) : definition_sequence δ :=
  { d with length := { d.length with value_unsigned := L } }

/-- Successive calls of `sequence_rw` on the same definition object. Before
each call the length field holds the next value of the list; the status
returned by a call does not keep the caller from calling again. -/
def sequence_rw_series {σ δ : Type} (env : Env σ δ) :
    List Nat → σ → definition_sequence δ → σ × definition_sequence δ
  | [], pos, d => (pos, d)
  | L :: Ls, pos, d =>
    let r := sequence_rw env pos (with_length d L)
    sequence_rw_series env Ls r.world r.definition

/-! ## `sequence_declaration_new` (lines 88-112) -/

/-- The function `sequence_declaration_new`. `append_scope_path length []` is the
path `append_scope_path` (outside `sequence.c`) writes into the empty
`length_name` array. The result is the new declaration; its `elem` is the
element declaration as `declaration_ref` leaves it. The declaration scope built
by `new_declaration_scope(parent_scope)` is not read by any function of
`sequence.c` other than `_sequence_declaration_free` and is not represented. -/
def sequence_declaration_new (append_scope_path : String → List GQuark → List GQuark)
    (length : String) (elem_declaration : declaration) : declaration_sequence :=
  -- sequence_declaration->length_name = g_array_new(...); append_scope_path(length, ...);
  let length_name := append_scope_path length []
  -- declaration_ref(elem_declaration); sequence_declaration->elem = elem_declaration;
  let elem := declaration_ref elem_declaration
  -- declaration->id = CTF_TYPE_SEQUENCE; alignment; ref = 1
  { p := { alignment := elem_declaration.alignment, ref := 1, kind := .sequence }
    length_name := length_name
    elem := elem }

/-! ## `_sequence_definition_free` (lines 186-209) -/

/-- Modelled from the spec: `definition_unref` (spec 6, `unref`) on the length
field; the release of the object when the count reaches zero is not represented. -/
def definition_unref (d : definition_integer) : definition_integer := { d with ref := d.ref - 1 }

/-- What `_sequence_definition_free` leaves behind: the world after the
`definition_free` calls, the shared declaration and the length field after
their `unref`, and what was handed to `g_string_free`, `g_ptr_array_free` and
`free_definition_scope`. -/
structure definition_free_result (σ δ : Type) where
  world : σ
  declaration : declaration_sequence
  length : definition_integer
  freed_string : Option String
  freed_elems : Option (GPtrArray δ)
  freed_scope : definition_scope

/-- The loop of lines 197-202 over the slots of the child list, in order:
`field->declaration->definition_free(field)`. A `NULL` slot is dereferenced. -/
def sequence_definition_free_loop {σ δ : Type} (definition_free : δ → σ → σ) :
    GPtrArray δ → σ → Except Fault σ
  | [], w => .ok w
  | none :: _, _ => .error .null_pointer_dereference
  | some field :: rest, w =>
    sequence_definition_free_loop definition_free rest (definition_free field w)

/-- The function `_sequence_definition_free`. `definition_free field` is the call
`field->declaration->definition_free(field)` into the element kind. With no child
list, `g_ptr_array_free(NULL, TRUE)` does nothing. -/
def _sequence_definition_free {σ δ : Type} (definition_free : δ → σ → σ) (w : σ)
    (sequence : definition_sequence δ) : Except Fault (definition_free_result σ δ) :=
  -- if (sequence->string) (void) g_string_free(sequence->string, TRUE);
  let freed_string := sequence.string
  -- if (sequence->elems) for (i = 0; i < sequence->elems->len; i++) ...
  let children : Except Fault σ :=
    match sequence.elems with
    | none => .ok w
    | some elems => sequence_definition_free_loop definition_free elems w
  match children with
  | .error f => .error f
  | .ok w1 =>
    -- g_ptr_array_free; definition_unref(len_definition);
    -- free_definition_scope(sequence->p.scope); declaration_unref(sequence->p.declaration);
    .ok { world := w1
          declaration := { sequence.declaration with
                           p := declaration_unref sequence.declaration.p }
          length := definition_unref sequence.length
          freed_string := freed_string
          freed_elems := sequence.elems
          freed_scope := sequence.p.scope }

/-! ## States of a definition, for stating the properties -/

/-- Every slot of a child list holds a child (no slot is `NULL`). -/
def all_constructed {δ : Type} (elems : GPtrArray δ) : Prop :=
  ∀ x, x ∈ elems → x ≠ none

/-- The children a child list holds, in slot order. -/
def children_of {δ : Type} (elems : Option (GPtrArray δ)) : List δ :=
  match elems with
  | none => []
  | some elems => elems.reduceOption

/-- Every call of the series `sequence_rw_series` returns `0`. -/
def sequence_rw_series_ok {σ δ : Type} (env : Env σ δ) :
    List Nat → σ → definition_sequence δ → Prop
  | [], _, _ => True
  | L :: Ls, pos, d =>
    (sequence_rw env pos (with_length d L)).ret = .ok 0
    ∧ sequence_rw_series_ok env Ls (sequence_rw env pos (with_length d L)).world
        (sequence_rw env pos (with_length d L)).definition

/-- The element declaration is an integer with UTF-8 or ASCII encoding. -/
def is_text_declaration (elem : declaration) : Prop :=
  ∃ di : declaration_integer, elem.kind = .integer di
    ∧ (di.encoding = .CTF_STRING_UTF8 ∨ di.encoding = .CTF_STRING_ASCII)

/-! ## The passes of the loop, for stating what a run did -/

/-- The child the pass at index `i` constructs when it starts in world `w`:
the value `definition_new` returns at lines 66-68. -/
def sequence_rw_child {σ δ : Type} (env : Env σ δ) (d : definition_sequence δ)
    (i : Nat) (w : σ) : Option δ :=
  (env.definition_new d.declaration.elem d.p.scope
    (g_quark_from_string (env.str_after_free (g_string_printf_index i)))
    (int_of_uint64 i) none w).1

/-- The world and the child list after `n` passes of the loop body from index
`i`, one after the other. -/
def sequence_rw_passes {σ δ : Type} (env : Env σ δ) (d : definition_sequence δ) :
    Nat → Nat → σ → GPtrArray δ → σ × GPtrArray δ
  | 0, _, w, elems => (w, elems)
  | n + 1, i, w, elems =>
    let s := sequence_rw_body env d i w elems
    sequence_rw_passes env d n (i + 1) s.world s.elems

/-- The world and the child list in which `sequence_rw`, called in world `pos` on
a definition with child list `elems`, starts the pass for index
`elems.length + j`, the passes before it having been made. -/
def sequence_rw_before {σ δ : Type} (env : Env σ δ) (pos : σ) (d : definition_sequence δ)
    (elems : GPtrArray δ) (j : Nat) : σ × GPtrArray δ :=
  sequence_rw_passes env d j elems.length pos
    (g_ptr_array_set_size elems (int_of_uint64 d.length.value_unsigned))

/-- The loop state the pass for index `elems.length + j` ends in; its `ret` is
the status `generic_rw` returns on the child at that index. -/
def sequence_rw_pass {σ δ : Type} (env : Env σ δ) (pos : σ) (d : definition_sequence δ)
    (elems : GPtrArray δ) (j : Nat) : rw_state σ δ :=
  sequence_rw_body env d (elems.length + j)
    (sequence_rw_before env pos d elems j).1 (sequence_rw_before env pos d elems j).2

/-! ## Environments used to run the code on concrete inputs -/

/-- A call made by `sequence_rw` or `_sequence_definition_free` to code outside
`sequence.c`, with its arguments. -/
inductive rw_call where
  | definition_new (elem : declaration) (scope : definition_scope) (name : GQuark)
      (index : Int) (root_name : Option String)
  | generic_rw (field : Option Nat)
  | definition_free (field : Nat)
  deriving DecidableEq, Repr

/-- An environment whose world is the list of calls made so far. The child
constructed with index `i` is the handle `100 + i`; `generic_rw` returns `0`. -/
def trace_env (after_free : String → Option String) : Env (List rw_call) Nat where
  definition_new := fun elem scope name index root_name log =>
    (some (100 + index.toNat), log ++ [rw_call.definition_new elem scope name index root_name])
  generic_rw := fun field log => (0, log ++ [rw_call.generic_rw field])
  str_after_free := after_free

/-- A 32-bit, 32-bit-aligned integer declaration without text encoding. -/
def int32_declaration : declaration :=
  { alignment := 32, ref := 1,
    kind := .integer { len := 32, signedness := false, encoding := .CTF_STRING_NONE } }

/-- An 8-bit, 8-bit-aligned integer declaration with UTF-8 encoding. -/
def char_declaration : declaration :=
  { alignment := 8, ref := 1,
    kind := .integer { len := 8, signedness := false, encoding := .CTF_STRING_UTF8 } }

/-- An unsigned 32-bit length field holding `L`. -/
def length_field (L : Nat) : definition_integer :=
  { ref := 1, declaration := { len := 32, signedness := false, encoding := .CTF_STRING_NONE },
    value_unsigned := L }

/-- An element-list sequence definition of 32-bit integers with the given
child list and length-field value. -/
def list_definition (elems : GPtrArray Nat) (L : Nat) : definition_sequence Nat :=
  { p := { ref := 1, index := 0, name := some "seq", path := some "seq",
           scope := { definitions := [], scope_path := [some "seq"] } }
    declaration := { p := { alignment := 32, ref := 2, kind := .sequence },
                     length_name := [some "len"], elem := int32_declaration }
    length := length_field L
    string := none
    elems := some elems }

/-- A string-mode sequence definition (no child list) with the given buffer
and length-field value. -/
def string_definition (buffer : String) (L : Nat) : definition_sequence Nat :=
  { p := { ref := 1, index := 0, name := some "seq", path := some "seq",
           scope := { definitions := [], scope_path := [some "seq"] } }
    declaration := { p := { alignment := 8, ref := 2, kind := .sequence },
                     length_name := [some "len"], elem := char_declaration }
    length := length_field L
    string := some buffer
    elems := none }

/-- Scope functions for concrete runs: the nested scope extends the parent's
path by the field name, and the length path resolves to `length`. -/
def example_ops (length : Option definition_integer) : scope_ops where
  new_definition_path := fun _ field_name _ => field_name
  new_definition_scope := fun parent_scope field_name _ =>
    { definitions := [], scope_path := parent_scope.scope_path ++ [field_name] }
  lookup_path_definition := fun _ _ _ => length

/-- A signed 32-bit length field holding `L`. -/
def signed_length_field (L : Nat) : definition_integer :=
  { ref := 1, declaration := { len := 32, signedness := true, encoding := .CTF_STRING_NONE },
    value_unsigned := L }

/-- A sequence declaration over the given element declaration, with length
path `len` and reference count `1`. -/
def example_declaration (elem : declaration) : declaration_sequence :=
  { p := { alignment := elem.alignment, ref := 1, kind := .sequence },
    length_name := [some "len"], elem := elem }

/-- A parent scope with no registration. -/
def empty_scope : definition_scope := { definitions := [], scope_path := [] }

/-- A parent scope in which `seq` is already registered, to the definition at
address `512`. -/
def seq_scope : definition_scope := { definitions := [(some "seq", 512)], scope_path := [] }

/-- The element declaration is an integer with UTF-8 or ASCII encoding, width
`CHAR_BIT` and alignment `CHAR_BIT`. -/
def is_char_declaration (elem : declaration) : Prop :=
  ∃ di : declaration_integer, elem.kind = .integer di
    ∧ (di.encoding = .CTF_STRING_UTF8 ∨ di.encoding = .CTF_STRING_ASCII)
    ∧ di.len = 8 ∧ elem.alignment = 8

/-- Like `trace_env`, except that `generic_rw` returns the status `e` on the
child `bad`. -/
def failing_env (bad : Nat) (e : Int) : Env (List rw_call) Nat where
  definition_new := fun elem scope name index root_name log =>
    (some (100 + index.toNat), log ++ [rw_call.definition_new elem scope name index root_name])
  generic_rw := fun field log =>
    (if field = some bad then e else 0, log ++ [rw_call.generic_rw field])
  str_after_free := some

/-- Like `trace_env`, except that `definition_new` returns `NULL` for the child
of index `bad`. -/
def null_child_env (bad : Int) : Env (List rw_call) Nat where
  definition_new := fun elem scope name index root_name log =>
    (if index = bad then none else some (100 + index.toNat),
     log ++ [rw_call.definition_new elem scope name index root_name])
  generic_rw := fun field log => (0, log ++ [rw_call.generic_rw field])
  str_after_free := some

/-- The `definition_free` of the element kind, recording the call. -/
def trace_definition_free (field : Nat) (log : List rw_call) : List rw_call :=
  log ++ [rw_call.definition_free field]

/-- A 16-bit, 16-bit-aligned integer declaration with UTF-8 encoding. -/
def wide_char_declaration : declaration :=
  { alignment := 16, ref := 1,
    kind := .integer { len := 16, signedness := false, encoding := .CTF_STRING_UTF8 } }

/-- A path parser for concrete runs: the whole name as one segment. -/
def one_segment (length : String) (path : List GQuark) : List GQuark :=
  path ++ [some length]

/-- Like `trace_env`, except that `generic_rw` returns the status `-14` on an
absent child. -/
def strict_env : Env (List rw_call) Nat where
  definition_new := fun elem scope name index root_name log =>
    (some (100 + index.toNat), log ++ [rw_call.definition_new elem scope name index root_name])
  generic_rw := fun field log =>
    (if field = none then -14 else 0, log ++ [rw_call.generic_rw field])
  str_after_free := some

/-! ## Properties of `sequence_rw` -/

/-- With as many children as the length field asks for, or more, `sequence_rw`
does nothing: the loop of line 55 starts at `oldlen` and has no pass to make. -/
theorem sequence_rw_no_pass {σ δ : Type} (env : Env σ δ) (pos : σ)
    (d : definition_sequence δ) (elems : GPtrArray δ)
    (he : d.elems = some elems) (hle : d.length.value_unsigned ≤ elems.length) :
    sequence_rw env pos d = { ret := .ok 0, world := pos, definition := d } := by
  obtain ⟨p, decl, len, str, el⟩ := d
  simp only at he hle
  subst he
  have h1 : ¬ elems.length < len.value_unsigned := Nat.not_lt.mpr hle
  have h2 : len.value_unsigned - elems.length = 0 := Nat.sub_eq_zero_of_le hle
  simp [sequence_rw, h1, h2, sequence_rw_loop]

/-- C1, evaluated on the code: an element-list definition that holds the two
children `100` and `101` while the length field holds `2`. `sequence_rw` returns
`0` and the list of calls stays empty: `generic_rw` is invoked on neither child,
so no child below the length is decoded again. -/
theorem sequence_rw_existing_children_not_decoded :
    (sequence_rw (trace_env some) [] (list_definition [some 100, some 101] 2)).ret = .ok 0
    ∧ (sequence_rw (trace_env some) [] (list_definition [some 100, some 101] 2)).world = []
    ∧ (sequence_rw (trace_env some) [] (list_definition [some 100, some 101] 2)).definition.elems
        = some [some 100, some 101] := by
  refine ⟨rfl, rfl, rfl⟩

/-- In string mode (no child list) `sequence_rw` stops at line 51, on the
dereference of the absent child list, before any call or store. -/
theorem sequence_rw_no_child_list {σ δ : Type} (env : Env σ δ) (pos : σ)
    (d : definition_sequence δ) (he : d.elems = none) :
    sequence_rw env pos d
      = { ret := .error .null_pointer_dereference, world := pos, definition := d } := by
  simp [sequence_rw, he]

/-- C3, evaluated on the code: a string-mode definition (8-bit UTF-8 element, no
child list) with an empty buffer and length `5`. `sequence_rw` does not return:
line 51 dereferences the absent child list. Nothing has been read from the
cursor and the buffer is still empty, not 5 bytes long. -/
theorem sequence_rw_string_mode_faults :
    (string_definition "" 5).elems = none
    ∧ (sequence_rw (trace_env some) [] (string_definition "" 5)).ret
        = .error .null_pointer_dereference
    ∧ (sequence_rw (trace_env some) [] (string_definition "" 5)).definition.string = some ""
    ∧ (sequence_rw (trace_env some) [] (string_definition "" 5)).world = [] := by
  refine ⟨rfl, rfl, rfl, rfl⟩

/-- A length that fits a `gint` is passed on unchanged. -/
theorem int_of_uint64_of_le (n : Nat) (h : n ≤ 2147483647) : int_of_uint64 n = (n : Int) := by
  have h1 : n % 4294967296 = n := Nat.mod_eq_of_lt (by omega)
  unfold int_of_uint64
  rw [h1, if_pos (by omega)]

/-- For a length that fits a `gint`, `g_ptr_array_set_size` cuts or pads the
array to that length. -/
theorem g_ptr_array_set_size_of_le {δ : Type} (array : GPtrArray δ) (n : Nat)
    (h : n ≤ 2147483647) :
    g_ptr_array_set_size array (int_of_uint64 n)
      = array.take n ++ List.replicate (n - array.length) none := by
  rw [int_of_uint64_of_le n h]
  unfold g_ptr_array_set_size
  rw [if_neg (by omega), Int.toNat_ofNat]

/-- For a length that fits a `gint`, `g_ptr_array_set_size` gives the array the
length asked for. -/
theorem g_ptr_array_set_size_length {δ : Type} (array : GPtrArray δ) (n : Nat)
    (h : n ≤ 2147483647) :
    (g_ptr_array_set_size array (int_of_uint64 n)).length = n := by
  rw [g_ptr_array_set_size_of_le array n h]
  simp only [List.length_append, List.length_take, List.length_replicate]
  omega

/-- A pass of the loop stores into a slot: the list keeps its length. -/
theorem sequence_rw_body_length {σ δ : Type} (env : Env σ δ) (d : definition_sequence δ)
    (i : Nat) (w : σ) (elems : GPtrArray δ) :
    (sequence_rw_body env d i w elems).elems.length = elems.length := by
  simp [sequence_rw_body]

/-- The loop with at least one pass left, unfolded once. -/
theorem sequence_rw_loop_succ {σ δ : Type} (env : Env σ δ) (d : definition_sequence δ)
    (n i : Nat) (w : σ) (elems : GPtrArray δ) :
    sequence_rw_loop env d (n + 1) i w elems
      = if i < elems.length then
          if (sequence_rw_body env d i w elems).ret ≠ 0 then
            { ret := .ok (sequence_rw_body env d i w elems).ret
              world := (sequence_rw_body env d i w elems).world
              elems := (sequence_rw_body env d i w elems).elems }
          else sequence_rw_loop env d n (i + 1) (sequence_rw_body env d i w elems).world
            (sequence_rw_body env d i w elems).elems
        else
          { ret := .error .out_of_bounds_store
            world := (env.definition_new d.declaration.elem d.p.scope
              (g_quark_from_string (env.str_after_free (g_string_printf_index i)))
              (int_of_uint64 i) none w).2
            elems := elems } :=
  rfl

/-- The loop keeps the length of the child list, however it ends. -/
theorem sequence_rw_loop_length {σ δ : Type} (env : Env σ δ) (d : definition_sequence δ)
    (n : Nat) : ∀ (i : Nat) (w : σ) (elems : GPtrArray δ),
    (sequence_rw_loop env d n i w elems).elems.length = elems.length := by
  induction n with
  | zero => intro i w elems; rfl
  | succ n ih =>
    intro i w elems
    rw [sequence_rw_loop_succ]
    by_cases hb : i < elems.length
    · rw [if_pos hb]
      by_cases h0 : (sequence_rw_body env d i w elems).ret ≠ 0
      · rw [if_pos h0]
        exact sequence_rw_body_length env d i w elems
      · rw [if_neg h0, ih, sequence_rw_body_length]
    · rw [if_neg hb]

/-- A definition in element-list mode is in element-list mode after the call. -/
theorem sequence_rw_elems_some {σ δ : Type} (env : Env σ δ) (pos : σ)
    (d : definition_sequence δ) (elems : GPtrArray δ) (he : d.elems = some elems) :
    ∃ elems1, (sequence_rw env pos d).definition.elems = some elems1 := by
  simp only [sequence_rw, he]
  exact ⟨_, rfl⟩

/-- For a length that fits a `gint`, one call of `sequence_rw` in element-list
mode leaves a child list whose length is the larger of the previous length and
the length-field value. -/
theorem sequence_rw_elems_len {σ δ : Type} (env : Env σ δ) (pos : σ)
    (d : definition_sequence δ) (elems : GPtrArray δ) (he : d.elems = some elems)
    (hL : d.length.value_unsigned ≤ 2147483647) :
    ∃ elems1, (sequence_rw env pos d).definition.elems = some elems1
      ∧ elems1.length = max elems.length d.length.value_unsigned := by
  simp only [sequence_rw, he]
  refine ⟨_, rfl, ?_⟩
  rw [sequence_rw_loop_length]
  split
  · rw [g_ptr_array_set_size_length _ _ hL]; omega
  · omega

/-- A series of calls that ends with one more call. -/
theorem sequence_rw_series_append {σ δ : Type} (env : Env σ δ) (Ls : List Nat) (L : Nat) :
    ∀ (pos : σ) (d : definition_sequence δ),
    sequence_rw_series env (Ls ++ [L]) pos d
      = ((sequence_rw env (sequence_rw_series env Ls pos d).1
            (with_length (sequence_rw_series env Ls pos d).2 L)).world,
         (sequence_rw env (sequence_rw_series env Ls pos d).1
            (with_length (sequence_rw_series env Ls pos d).2 L)).definition) := by
  induction Ls with
  | nil => intro pos d; rfl
  | cons L0 Ls ih =>
    intro pos d
    exact ih (sequence_rw env pos (with_length d L0)).world
      (sequence_rw env pos (with_length d L0)).definition

/-- A definition in element-list mode stays in element-list mode along a series. -/
theorem sequence_rw_series_elems {σ δ : Type} (env : Env σ δ) (Ls : List Nat) :
    ∀ (pos : σ) (d : definition_sequence δ), d.elems.isSome = true →
    (sequence_rw_series env Ls pos d).2.elems.isSome = true := by
  induction Ls with
  | nil => intro pos d h; exact h
  | cons L Ls ih =>
    intro pos d h
    simp only [sequence_rw_series]
    apply ih
    obtain ⟨elems, he⟩ := Option.isSome_iff_exists.mp h
    obtain ⟨elems1, h1⟩ := sequence_rw_elems_some env pos (with_length d L) elems he
    rw [h1]
    rfl

/-- Along a series of `sequence_rw` calls on an element-list definition, a call
whose length-field value fits a `gint` leaves the child-list size at the maximum
of the size before the call and that value; the size does not decrease. -/
theorem sequence_rw_growth_bounded {σ δ : Type} (env : Env σ δ) (pos : σ)
    (d : definition_sequence δ) (Ls : List Nat) (i : Nat)
    (hmode : d.elems.isSome = true) (hi : i < Ls.length)
    (hL : Ls.get ⟨i, hi⟩ ≤ 2147483647) :
    elems_len (sequence_rw_series env (Ls.take (i + 1)) pos d).2
        = max (elems_len (sequence_rw_series env (Ls.take i) pos d).2) (Ls.get ⟨i, hi⟩)
    ∧ elems_len (sequence_rw_series env (Ls.take i) pos d).2
        ≤ elems_len (sequence_rw_series env (Ls.take (i + 1)) pos d).2 := by
  have htake : Ls.take (i + 1) = Ls.take i ++ [Ls.get ⟨i, hi⟩] := by
    rw [List.take_succ]
    simp [List.getElem?_eq_getElem hi]
  have hsome := sequence_rw_series_elems env (Ls.take i) pos d hmode
  obtain ⟨elems, he⟩ := Option.isSome_iff_exists.mp hsome
  obtain ⟨elems1, h1, h2⟩ := sequence_rw_elems_len env (sequence_rw_series env (Ls.take i) pos d).1
    (with_length (sequence_rw_series env (Ls.take i) pos d).2 (Ls.get ⟨i, hi⟩)) elems he hL
  have key : elems_len (sequence_rw_series env (Ls.take (i + 1)) pos d).2
      = max (elems_len (sequence_rw_series env (Ls.take i) pos d).2) (Ls.get ⟨i, hi⟩) := by
    rw [htake, sequence_rw_series_append]
    simp only [elems_len, h1, he]
    exact h2
  refine ⟨key, ?_⟩
  rw [key]
  exact Nat.le_max_left _ _

/-- C4, evaluated on the code: a definition holding the three children `100`,
`101`, `102`, then one `sequence_rw` call with the length field at `2^32 + 1`.
Line 53 hands the `uint64_t` length to the `gint` parameter of
`g_ptr_array_set_size`, where it arrives as `1`: the child list is cut from size
`3` to size `1`, below its size before the call and not the maximum of `3` and the
length. -/
theorem sequence_rw_shrinks_on_wide_length :
    elems_len (list_definition [some 100, some 101, some 102] 3) = 3
    ∧ int_of_uint64 4294967297 = 1
    ∧ elems_len (sequence_rw_series (trace_env some) [4294967297] []
        (list_definition [some 100, some 101, some 102] 3)).2 = 1
    ∧ (sequence_rw_series (trace_env some) [4294967297] []
        (list_definition [some 100, some 101, some 102] 3)).2.elems = some [some 100] := by
  refine ⟨rfl, by decide, by decide, by decide⟩

/-- The loop stops at the first pass whose status is not zero, in the state
that pass ends in, the slots of the passes made being in the array. -/
theorem sequence_rw_loop_stops {σ δ : Type} (env : Env σ δ) (d : definition_sequence δ)
    (m : Nat) : ∀ (n i : Nat) (w : σ) (elems : GPtrArray δ), m < n →
    i + m < elems.length →
    (∀ j, j < m → (sequence_rw_body env d (i + j) (sequence_rw_passes env d j i w elems).1
        (sequence_rw_passes env d j i w elems).2).ret = 0) →
    (sequence_rw_body env d (i + m) (sequence_rw_passes env d m i w elems).1
        (sequence_rw_passes env d m i w elems).2).ret ≠ 0 →
    sequence_rw_loop env d n i w elems
      = { ret := .ok (sequence_rw_body env d (i + m) (sequence_rw_passes env d m i w elems).1
                  (sequence_rw_passes env d m i w elems).2).ret
          world := (sequence_rw_body env d (i + m) (sequence_rw_passes env d m i w elems).1
                  (sequence_rw_passes env d m i w elems).2).world
          elems := (sequence_rw_body env d (i + m) (sequence_rw_passes env d m i w elems).1
                  (sequence_rw_passes env d m i w elems).2).elems } := by
  induction m with
  | zero =>
    intro n i w elems hn hb _ hret
    obtain ⟨n, rfl⟩ : ∃ k, n = k + 1 := ⟨n - 1, by omega⟩
    have hret0 : (sequence_rw_body env d i w elems).ret ≠ 0 := hret
    rw [sequence_rw_loop_succ, if_pos (by omega), if_pos hret0]
    rfl
  | succ m ih =>
    intro n i w elems hn hb hzero hret
    obtain ⟨n, rfl⟩ : ∃ k, n = k + 1 := ⟨n - 1, by omega⟩
    have h0 : (sequence_rw_body env d i w elems).ret = 0 := hzero 0 (Nat.succ_pos m)
    have hbl := sequence_rw_body_length env d i w elems
    have hm : i + (m + 1) = i + 1 + m := by omega
    rw [sequence_rw_loop_succ, if_pos (by omega), if_neg (not_not.mpr h0),
      ih n (i + 1) _ _ (by omega) (by rw [hbl]; omega), hm]
    · rfl
    · intro j hj
      have hj1 : i + 1 + j = i + (j + 1) := by omega
      rw [hj1]
      exact hzero (j + 1) (by omega)
    · rw [← hm]
      exact hret

/-- When every pass has status zero and its slot is in the array, the loop makes
them all and ends with `0`. -/
theorem sequence_rw_loop_completes {σ δ : Type} (env : Env σ δ) (d : definition_sequence δ)
    (n : Nat) : ∀ (i : Nat) (w : σ) (elems : GPtrArray δ), i + n ≤ elems.length →
    (∀ j, j < n → (sequence_rw_body env d (i + j) (sequence_rw_passes env d j i w elems).1
        (sequence_rw_passes env d j i w elems).2).ret = 0) →
    sequence_rw_loop env d n i w elems
      = { ret := .ok 0, world := (sequence_rw_passes env d n i w elems).1,
          elems := (sequence_rw_passes env d n i w elems).2 } := by
  induction n with
  | zero => intro i w elems _ _; rfl
  | succ n ih =>
    intro i w elems hb hzero
    have h0 : (sequence_rw_body env d i w elems).ret = 0 := hzero 0 (Nat.succ_pos n)
    have hbl := sequence_rw_body_length env d i w elems
    rw [sequence_rw_loop_succ, if_pos (by omega), if_neg (not_not.mpr h0),
      ih (i + 1) _ _ (by rw [hbl]; omega)]
    · rfl
    · intro j hj
      have hj1 : i + 1 + j = i + (j + 1) := by omega
      rw [hj1]
      exact hzero (j + 1) (by omega)

/-- A loop that ends with status `0` has made every pass, each with status `0`
and each on a slot of the array. -/
theorem sequence_rw_loop_ret_zero {σ δ : Type} (env : Env σ δ) (d : definition_sequence δ)
    (n : Nat) : ∀ (i : Nat) (w : σ) (elems : GPtrArray δ),
    (sequence_rw_loop env d n i w elems).ret = .ok 0 →
    (n = 0 ∨ i + n ≤ elems.length)
    ∧ ∀ j, j < n → (sequence_rw_body env d (i + j) (sequence_rw_passes env d j i w elems).1
        (sequence_rw_passes env d j i w elems).2).ret = 0 := by
  induction n with
  | zero =>
    intro i w elems _
    exact ⟨Or.inl rfl, fun j hj => absurd hj (Nat.not_lt_zero j)⟩
  | succ n ih =>
    intro i w elems hret
    rw [sequence_rw_loop_succ] at hret
    by_cases hb : i < elems.length
    · rw [if_pos hb] at hret
      by_cases h0 : (sequence_rw_body env d i w elems).ret ≠ 0
      · rw [if_pos h0] at hret
        have hz : (sequence_rw_body env d i w elems).ret = 0 := by
          injection hret
        exact absurd hz h0
      · rw [if_neg h0] at hret
        obtain ⟨hbound, hpass⟩ := ih (i + 1) _ _ hret
        have hbl := sequence_rw_body_length env d i w elems
        refine ⟨Or.inr ?_, ?_⟩
        · rcases hbound with hn | hn
          · omega
          · rw [hbl] at hn
            omega
        · intro j hj
          cases j with
          | zero => exact not_not.mp h0
          | succ j =>
            have hj1 : i + (j + 1) = i + 1 + j := by omega
            rw [hj1]
            exact hpass j (by omega)
    · rw [if_neg hb] at hret
      cases hret

/-- The child list after `m` passes from index `i`: same length, the slots
`i .. i + m - 1` hold the children the passes constructed, the others are as before. -/
theorem sequence_rw_passes_slots {σ δ : Type} (env : Env σ δ) (d : definition_sequence δ)
    (m : Nat) : ∀ (i : Nat) (w : σ) (elems : GPtrArray δ), i + m ≤ elems.length →
    (sequence_rw_passes env d m i w elems).2.length = elems.length
    ∧ (∀ j, j < i → (sequence_rw_passes env d m i w elems).2[j]? = elems[j]?)
    ∧ (∀ j, i + m ≤ j → (sequence_rw_passes env d m i w elems).2[j]? = elems[j]?)
    ∧ (∀ j, j < m → (sequence_rw_passes env d m i w elems).2[i + j]?
        = some (sequence_rw_child env d (i + j) (sequence_rw_passes env d j i w elems).1)) := by
  induction m with
  | zero =>
    intro i w elems _
    refine ⟨rfl, fun _ _ => rfl, fun _ _ => rfl, fun j hj => absurd hj (Nat.not_lt_zero j)⟩
  | succ m ih =>
    intro i w elems hlen
    have hbl : (sequence_rw_body env d i w elems).elems.length = elems.length :=
      sequence_rw_body_length env d i w elems
    obtain ⟨h1, h2, h3, h4⟩ := ih (i + 1) (sequence_rw_body env d i w elems).world
      (sequence_rw_body env d i w elems).elems (by rw [hbl]; omega)
    have hbody : ∀ j, j ≠ i → (sequence_rw_body env d i w elems).elems[j]? = elems[j]? := by
      intro j hj
      simp only [sequence_rw_body]
      exact List.getElem?_set_ne (Ne.symm hj)
    have hself : (sequence_rw_body env d i w elems).elems[i]?
        = some (sequence_rw_child env d i w) := by
      simp only [sequence_rw_body, sequence_rw_child]
      exact List.getElem?_set_self (by omega)
    refine ⟨?_, ?_, ?_, ?_⟩
    · simp only [sequence_rw_passes]
      rw [h1, hbl]
    · intro j hj
      simp only [sequence_rw_passes]
      rw [h2 j (by omega), hbody j (by omega)]
    · intro j hj
      simp only [sequence_rw_passes]
      rw [h3 j (by omega), hbody j (by omega)]
    · intro j hj
      simp only [sequence_rw_passes]
      cases j with
      | zero =>
        show (sequence_rw_passes env d m (i + 1) (sequence_rw_body env d i w elems).world
          (sequence_rw_body env d i w elems).elems).2[i]? = some (sequence_rw_child env d i w)
        rw [h2 i (by omega), hself]
      | succ j =>
        have hshift : i + (j + 1) = i + 1 + j := by omega
        rw [hshift, h4 j (by omega)]
        rfl

/-- The slots of a child list grown by `g_ptr_array_set_size` to a length that
fits a `gint`: the old slots keep their contents, the new ones hold `NULL`. -/
theorem g_ptr_array_set_size_slots {δ : Type} (array : GPtrArray δ) (n : Nat)
    (hn : n ≤ 2147483647) (h : array.length ≤ n) :
    (∀ j, j < array.length → (g_ptr_array_set_size array (int_of_uint64 n))[j]? = array[j]?)
    ∧ (∀ j, array.length ≤ j → j < n →
        (g_ptr_array_set_size array (int_of_uint64 n))[j]? = some none) := by
  have htake : array.take n = array := List.take_of_length_le h
  rw [g_ptr_array_set_size_of_le array n hn, htake]
  constructor
  · intro j hj
    exact List.getElem?_append_left hj
  · intro j hj hlt
    rw [List.getElem?_append_right hj, List.getElem?_replicate, if_pos (by omega)]

/-- The call of `sequence_rw` on a definition that has fewer children than the
length field asks for, in terms of its loop. -/
theorem sequence_rw_grow {σ δ : Type} (env : Env σ δ) (pos : σ)
    (d : definition_sequence δ) (elems : GPtrArray δ) (he : d.elems = some elems)
    (hlt : elems.length < d.length.value_unsigned) :
    sequence_rw env pos d
      = { ret := (sequence_rw_loop env d (d.length.value_unsigned - elems.length)
                  elems.length pos
                  (g_ptr_array_set_size elems (int_of_uint64 d.length.value_unsigned))).ret,
          world := (sequence_rw_loop env d (d.length.value_unsigned - elems.length)
                  elems.length pos
                  (g_ptr_array_set_size elems (int_of_uint64 d.length.value_unsigned))).world,
          definition :=
            { d with
              elems := some (sequence_rw_loop env d (d.length.value_unsigned - elems.length)
                  elems.length pos
                  (g_ptr_array_set_size elems
                    (int_of_uint64 d.length.value_unsigned))).elems } } := by
  simp only [sequence_rw, he, if_pos hlt]

/-- The child list a pass ends with is the one it started with, the new child stored. -/
theorem sequence_rw_pass_elems {σ δ : Type} (env : Env σ δ) (pos : σ)
    (d : definition_sequence δ) (elems : GPtrArray δ) (j : Nat) :
    (sequence_rw_pass env pos d elems j).elems
      = (sequence_rw_before env pos d elems j).2.set (elems.length + j)
          (sequence_rw_child env d (elems.length + j) (sequence_rw_before env pos d elems j).1) :=
  rfl

/-- Error propagation for a length that fits a `gint`: with `C` children and
length `L > C`, if `generic_rw` on the newly constructed child at index
`k = C + m < L` returns a non-zero `e` while all earlier ones returned `0`, then
`sequence_rw` returns exactly `e`; the world is the one the failing `generic_rw`
left (nothing is called afterwards, nothing is rolled back); the child list has
size `L`, its slots below `C` are as before, the slots `C .. k` hold the children
constructed by their passes, and the slots above `k` hold no child. -/
theorem sequence_rw_error_aborts {σ δ : Type} (env : Env σ δ) (pos : σ)
    (d : definition_sequence δ) (elems : GPtrArray δ) (m : Nat) (e : Int)
    (he : d.elems = some elems)
    (hL : d.length.value_unsigned ≤ 2147483647)
    (hk : elems.length + m < d.length.value_unsigned)
    (hzero : ∀ j, j < m → (sequence_rw_pass env pos d elems j).ret = 0)
    (hret : (sequence_rw_pass env pos d elems m).ret = e)
    (hne : e ≠ 0) :
    (sequence_rw env pos d).ret = .ok e
    ∧ (sequence_rw env pos d).world = (sequence_rw_pass env pos d elems m).world
    ∧ ∃ elems1, (sequence_rw env pos d).definition.elems = some elems1
      ∧ elems1.length = d.length.value_unsigned
      ∧ (∀ j, j < elems.length → elems1[j]? = elems[j]?)
      ∧ (∀ j, j ≤ m → elems1[elems.length + j]?
          = some (sequence_rw_child env d (elems.length + j)
              (sequence_rw_before env pos d elems j).1))
      ∧ (∀ j, elems.length + m < j → j < d.length.value_unsigned →
          elems1[j]? = some none) := by
  have hlt : elems.length < d.length.value_unsigned := by omega
  have hsz : (g_ptr_array_set_size elems (int_of_uint64 d.length.value_unsigned)).length
      = d.length.value_unsigned := g_ptr_array_set_size_length _ _ hL
  have hloop : sequence_rw_loop env d (d.length.value_unsigned - elems.length) elems.length pos
      (g_ptr_array_set_size elems (int_of_uint64 d.length.value_unsigned))
      = { ret := .ok (sequence_rw_pass env pos d elems m).ret
          world := (sequence_rw_pass env pos d elems m).world
          elems := (sequence_rw_pass env pos d elems m).elems } :=
    sequence_rw_loop_stops env d m _ _ _ _ (by omega) (by rw [hsz]; omega) hzero
      (by rw [← hret] at hne; exact hne)
  obtain ⟨p1, p2, p3, p4⟩ := sequence_rw_passes_slots env d m elems.length pos
    (g_ptr_array_set_size elems (int_of_uint64 d.length.value_unsigned)) (by rw [hsz]; omega)
  obtain ⟨g1, g2⟩ := g_ptr_array_set_size_slots elems d.length.value_unsigned hL (by omega)
  have hbl : (sequence_rw_before env pos d elems m).2.length = d.length.value_unsigned := by
    rw [← hsz]
    exact p1
  rw [sequence_rw_grow env pos d elems he hlt, hloop]
  refine ⟨by rw [hret], rfl, (sequence_rw_pass env pos d elems m).elems, rfl, ?_, ?_, ?_, ?_⟩
  · rw [sequence_rw_pass_elems, List.length_set]
    exact hbl
  · intro j hj
    rw [sequence_rw_pass_elems, List.getElem?_set_ne (by omega)]
    exact (p2 j hj).trans (g1 j hj)
  · intro j hj
    rw [sequence_rw_pass_elems]
    rcases Nat.lt_or_eq_of_le hj with hjm | hjm
    · rw [List.getElem?_set_ne (by omega)]
      exact p4 j hjm
    · subst hjm
      exact List.getElem?_set_self (by rw [hbl]; omega)
  · intro j hj hjL
    rw [sequence_rw_pass_elems, List.getElem?_set_ne (by omega)]
    exact (p3 j (by omega)).trans (g2 j (by omega) hjL)

/-- A run of the error path at a small length: one existing child `100`, length
`4`, and a dispatcher that returns `-5` on the child `102` constructed at index
`2`. `sequence_rw` returns `-5`; the calls made are the construction and decode of
the children at indices `1` and `2` and nothing for index `3`, whose slot stays
`NULL`. -/
theorem sequence_rw_error_aborts_run :
    (sequence_rw (failing_env 102 (-5)) [] (list_definition [some 100] 4)).ret = .ok (-5)
    ∧ (sequence_rw (failing_env 102 (-5)) [] (list_definition [some 100] 4)).world
        = [rw_call.definition_new int32_declaration
              { definitions := [], scope_path := [some "seq"] } (some "[1]") 1 none,
           rw_call.generic_rw (some 101),
           rw_call.definition_new int32_declaration
              { definitions := [], scope_path := [some "seq"] } (some "[2]") 2 none,
           rw_call.generic_rw (some 102)]
    ∧ (sequence_rw (failing_env 102 (-5)) [] (list_definition [some 100] 4)).definition.elems
        = some [some 100, some 101, some 102, none] := by
  refine ⟨rfl, by decide, by decide⟩

/-- On a definition without children, for a length that fits a `gint`, when
every decode succeeds, `sequence_rw` returns `0` after one pass per index below
the length, and slot `j` holds the child constructed by pass `j`: through
`definition_new` on the element declaration, with the sequence's own scope, the
name read back from the released string, the index `j` as an `int`, and no root
name. -/
theorem sequence_rw_fresh_children {σ δ : Type} (env : Env σ δ) (pos : σ)
    (d : definition_sequence δ) (he : d.elems = some [])
    (hL : d.length.value_unsigned ≤ 2147483647)
    (hzero : ∀ j, j < d.length.value_unsigned → (sequence_rw_pass env pos d [] j).ret = 0) :
    (sequence_rw env pos d).ret = .ok 0
    ∧ (sequence_rw env pos d).world
        = (sequence_rw_before env pos d [] d.length.value_unsigned).1
    ∧ ∃ elems1, (sequence_rw env pos d).definition.elems = some elems1
      ∧ elems1.length = d.length.value_unsigned
      ∧ ∀ j, j < d.length.value_unsigned → elems1[j]?
          = some (sequence_rw_child env d j (sequence_rw_before env pos d [] j).1) := by
  have hsz : (g_ptr_array_set_size ([] : GPtrArray δ)
      (int_of_uint64 d.length.value_unsigned)).length
      = d.length.value_unsigned := g_ptr_array_set_size_length _ _ hL
  have hz : ∀ j, j < d.length.value_unsigned →
      (sequence_rw_body env d (0 + j)
        (sequence_rw_passes env d j 0 pos
          (g_ptr_array_set_size [] (int_of_uint64 d.length.value_unsigned))).1
        (sequence_rw_passes env d j 0 pos
          (g_ptr_array_set_size [] (int_of_uint64 d.length.value_unsigned))).2).ret = 0 := hzero
  have hloop := sequence_rw_loop_completes env d d.length.value_unsigned 0 pos
    (g_ptr_array_set_size [] (int_of_uint64 d.length.value_unsigned)) (by rw [hsz]; omega) hz
  obtain ⟨p1, _, _, p4⟩ := sequence_rw_passes_slots env d d.length.value_unsigned 0 pos
    (g_ptr_array_set_size [] (int_of_uint64 d.length.value_unsigned)) (by rw [hsz]; omega)
  rcases Nat.eq_zero_or_pos d.length.value_unsigned with h0 | hpos
  · rw [sequence_rw_no_pass env pos d [] he (by rw [h0]; exact Nat.le_refl _)]
    refine ⟨rfl, ?_, [], he, ?_, ?_⟩
    · rw [h0]; rfl
    · rw [h0]; rfl
    · intro j hj
      omega
  · rw [sequence_rw_grow env pos d [] he hpos]
    have hloop2 : sequence_rw_loop env d (d.length.value_unsigned - ([] : GPtrArray δ).length)
        ([] : GPtrArray δ).length pos
        (g_ptr_array_set_size [] (int_of_uint64 d.length.value_unsigned))
        = _ := hloop
    rw [hloop2]
    refine ⟨rfl, rfl, _, rfl, ?_, ?_⟩
    · exact p1.trans hsz
    · intro j hj
      have := p4 j hj
      rw [Nat.zero_add] at this
      exact this

/-- With the released string memory still readable, a definition without
children and length `3` gets the children named `[0]`, `[1]`, `[2]`, each
constructed and then decoded once, in ascending order. -/
theorem sequence_rw_three_children_intact :
    (sequence_rw (trace_env some) [] (list_definition [] 3)).world
      = [rw_call.definition_new int32_declaration
            { definitions := [], scope_path := [some "seq"] } (some "[0]") 0 none,
         rw_call.generic_rw (some 100),
         rw_call.definition_new int32_declaration
            { definitions := [], scope_path := [some "seq"] } (some "[1]") 1 none,
         rw_call.generic_rw (some 101),
         rw_call.definition_new int32_declaration
            { definitions := [], scope_path := [some "seq"] } (some "[2]") 2 none,
         rw_call.generic_rw (some 102)]
    ∧ (sequence_rw (trace_env some) [] (list_definition [] 3)).definition.elems
      = some [some 100, some 101, some 102] := by
  decide

/-- C8, evaluated on the code: a definition without children and length `1`, on
an allocator that leaves a `NULL` pointer in the released `GString`. Line 62
releases the string before line 63 reads `str->str`, so the name handed to
`definition_new` is read from released memory: here the quark `0`, not `[0]`. -/
theorem sequence_rw_child_name_read_after_free :
    (sequence_rw (trace_env (fun _ => none)) [] (list_definition [] 1)).ret = .ok 0
    ∧ (sequence_rw (trace_env (fun _ => none)) [] (list_definition [] 1)).world
      = [rw_call.definition_new int32_declaration
            { definitions := [], scope_path := [some "seq"] } none 0 none,
         rw_call.generic_rw (some 100)]
    ∧ (sequence_rw (trace_env (fun _ => none)) [] (list_definition [] 1)).world
      ≠ [rw_call.definition_new int32_declaration
            { definitions := [], scope_path := [some "seq"] } (some "[0]") 0 none,
         rw_call.generic_rw (some 100)] := by
  refine ⟨rfl, by decide, by decide⟩

/-! ## Properties of `sequence_index` -/

/-- C5, the claim as stated fails: an element-list definition whose child list is
still empty while the length field holds `1` (the length field has been decoded,
the sequence not yet). For `i = 0`, below the length, `sequence_index` returns no
child: the assertion of line 222 fails. -/
theorem sequence_index_unmaterialized :
    (0 : Nat) < sequence_len (list_definition [] 1)
    ∧ sequence_index (list_definition [] 1) 0 = .error .assertion_failure := by
  refine ⟨by decide, rfl⟩

/-- C5, amended: for every sequence definition and every index `i`,
`sequence_index` returns absent (`NULL`) when `i ≥ sequence_len`; when
`i < sequence_len`, the definition is in element-list mode and `i` is below the
child-list size, it returns the child stored at position `i` of the child list;
in string mode (no child list) it returns absent for every `i`. -/
theorem sequence_index_bounded {δ : Type} (sequence : definition_sequence δ) (i : Nat) :
    (sequence_len sequence ≤ i → sequence_index sequence i = .ok none)
    ∧ (∀ (elems : GPtrArray δ) (h : i < elems.length), sequence.elems = some elems →
        i < sequence_len sequence → sequence_index sequence i = .ok (elems.get ⟨i, h⟩))
    ∧ (sequence.elems = none → sequence_index sequence i = .ok none) := by
  refine ⟨?_, ?_, ?_⟩
  · intro hle
    unfold sequence_index
    cases sequence.elems with
    | none => rfl
    | some elems =>
      have : i ≥ sequence.length.value_unsigned := hle
      simp [this]
  · intro elems h he hlt
    have hn : ¬ i ≥ sequence.length.value_unsigned := Nat.not_le.mpr hlt
    simp [sequence_index, he, hn, h]
  · intro he
    simp [sequence_index, he]

/-- C5, amended, at concrete inputs: children `100, 101, 102` with length `2`
(index `2` is absent, index `1` is the child `101`), and a string-mode definition. -/
theorem sequence_index_bounded_witness :
    (sequence_len (list_definition [some 100, some 101, some 102] 2) ≤ 2
      ∧ sequence_index (list_definition [some 100, some 101, some 102] 2) 2 = .ok none)
    ∧ ((1 : Nat) < sequence_len (list_definition [some 100, some 101, some 102] 2)
      ∧ sequence_index (list_definition [some 100, some 101, some 102] 2) 1 = .ok (some 101))
    ∧ ((string_definition "abc" 3).elems = none
      ∧ sequence_index (string_definition "abc" 3) 1 = .ok none) :=
  ⟨⟨by decide,
      (sequence_index_bounded (list_definition [some 100, some 101, some 102] 2) 2).1
        (by decide)⟩,
    ⟨by decide,
      (sequence_index_bounded (list_definition [some 100, some 101, some 102] 2) 1).2.1
        [some 100, some 101, some 102] (by decide) rfl (by decide)⟩,
    ⟨rfl, (sequence_index_bounded (string_definition "abc" 3) 1).2.2 rfl⟩⟩

/-! ## Properties of `_sequence_definition_new` -/

/-- Registration of a name the scope already holds trips the assertion of line 141. -/
theorem definition_new_of_registered {δ : Type} (ops : scope_ops) (sequence : Nat)
    (declaration : declaration_sequence) (parent_scope : definition_scope)
    (field_name : GQuark) (index : Int) (root_name : Option String)
    (hreg : parent_scope.registered field_name = true) :
    (_sequence_definition_new ops sequence declaration parent_scope field_name index root_name
      : Except Fault (definition_new_result δ)) = .error .assertion_failure := by
  simp [_sequence_definition_new, register_field_definition, hreg]

/-- A length path that does not resolve leads to the `error` block. -/
theorem definition_new_of_unresolved {δ : Type} (ops : scope_ops) (sequence : Nat)
    (declaration : declaration_sequence) (parent_scope : definition_scope)
    (field_name : GQuark) (index : Int) (root_name : Option String)
    (hreg : parent_scope.registered field_name = false)
    (hl : resolved_length ops sequence declaration parent_scope field_name root_name = none) :
    (_sequence_definition_new ops sequence declaration parent_scope field_name index root_name
      : Except Fault (definition_new_result δ))
      = .ok (sequence_definition_new_error
          { declaration with p := declaration_ref declaration.p }
          { parent_scope with
            definitions := parent_scope.definitions ++ [(field_name, sequence)] }
          (ops.new_definition_scope parent_scope field_name root_name) none) := by
  simp [resolved_length, register_field_definition, hreg] at hl
  simp [_sequence_definition_new, register_field_definition, hreg, hl]

/-- A signed length field leads to the `error` block. -/
theorem definition_new_of_signed {δ : Type} (ops : scope_ops) (sequence : Nat)
    (declaration : declaration_sequence) (parent_scope : definition_scope)
    (field_name : GQuark) (index : Int) (root_name : Option String)
    (len_parent : definition_integer)
    (hreg : parent_scope.registered field_name = false)
    (hl : resolved_length ops sequence declaration parent_scope field_name root_name
            = some len_parent)
    (hs : len_parent.declaration.signedness = true) :
    (_sequence_definition_new ops sequence declaration parent_scope field_name index root_name
      : Except Fault (definition_new_result δ))
      = .ok (sequence_definition_new_error
          { declaration with p := declaration_ref declaration.p }
          { parent_scope with
            definitions := parent_scope.definitions ++ [(field_name, sequence)] }
          (ops.new_definition_scope parent_scope field_name root_name) (some len_parent)) := by
  simp [resolved_length, register_field_definition, hreg] at hl
  simp [_sequence_definition_new, register_field_definition, hreg, hl, hs]

/-- An unsigned resolved length field leads to the returned definition. -/
theorem definition_new_of_unsigned {δ : Type} (ops : scope_ops) (sequence : Nat)
    (declaration : declaration_sequence) (parent_scope : definition_scope)
    (field_name : GQuark) (index : Int) (root_name : Option String)
    (len_parent : definition_integer)
    (hreg : parent_scope.registered field_name = false)
    (hl : resolved_length ops sequence declaration parent_scope field_name root_name
            = some len_parent)
    (hs : len_parent.declaration.signedness = false) :
    (_sequence_definition_new ops sequence declaration parent_scope field_name index root_name
      : Except Fault (definition_new_result δ))
      = .ok { ret := some
                { p := { ref := 1
                         index := if root_name.isSome then INT_MAX else index
                         name := field_name
                         path := ops.new_definition_path parent_scope field_name root_name
                         scope := ops.new_definition_scope parent_scope field_name root_name }
                  declaration := { declaration with p := declaration_ref declaration.p }
                  length := definition_ref len_parent
                  string := (sequence_storage declaration.elem : _ × Option (GPtrArray δ)).1
                  elems := (sequence_storage declaration.elem).2 }
              declaration := { declaration with p := declaration_ref declaration.p }
              parent_scope := { parent_scope with
                definitions := parent_scope.definitions ++ [(field_name, sequence)] }
              freed_scope := none
              len_parent := some (definition_ref len_parent) } := by
  simp [resolved_length, register_field_definition, hreg] at hl
  simp [_sequence_definition_new, register_field_definition, hreg, hl, hs]

/-- The four ways through `_sequence_definition_new`. -/
theorem definition_new_cases (ops : scope_ops) (sequence : Nat)
    (declaration : declaration_sequence) (parent_scope : definition_scope)
    (field_name : GQuark) (root_name : Option String) :
    parent_scope.registered field_name = true
    ∨ (parent_scope.registered field_name = false
        ∧ resolved_length ops sequence declaration parent_scope field_name root_name = none)
    ∨ (∃ l, parent_scope.registered field_name = false
        ∧ resolved_length ops sequence declaration parent_scope field_name root_name = some l
        ∧ l.declaration.signedness = true)
    ∨ (∃ l, parent_scope.registered field_name = false
        ∧ resolved_length ops sequence declaration parent_scope field_name root_name = some l
        ∧ l.declaration.signedness = false) := by
  cases hreg : parent_scope.registered field_name
  · right
    cases hl : resolved_length ops sequence declaration parent_scope field_name root_name with
    | none => exact Or.inl ⟨rfl, rfl⟩
    | some l =>
      right
      cases hs : l.declaration.signedness
      · exact Or.inr ⟨l, rfl, rfl, hs⟩
      · exact Or.inl ⟨l, rfl, rfl, hs⟩
  · exact Or.inl rfl

/-- When `_sequence_definition_new` returns `NULL`, the parent scope it leaves
holds the registration made at line 139 on top of the ones it held before. -/
theorem definition_new_failure_keeps_registration {δ : Type} (ops : scope_ops)
    (sequence : Nat) (declaration : declaration_sequence) (parent_scope : definition_scope)
    (field_name : GQuark) (index : Int) (root_name : Option String)
    (r : definition_new_result δ)
    (hr : _sequence_definition_new ops sequence declaration parent_scope field_name
            index root_name = .ok r)
    (hnull : r.ret = none) :
    r.parent_scope.definitions = parent_scope.definitions ++ [(field_name, sequence)] := by
  rcases definition_new_cases ops sequence declaration parent_scope field_name root_name with
    h | ⟨h, hl⟩ | ⟨l, h, hl, hs⟩ | ⟨l, h, hl, hs⟩
  · rw [definition_new_of_registered ops sequence declaration parent_scope field_name index
      root_name h] at hr
    cases hr
  · rw [definition_new_of_unresolved ops sequence declaration parent_scope field_name index
      root_name h hl] at hr
    cases hr
    rfl
  · rw [definition_new_of_signed ops sequence declaration parent_scope field_name index
      root_name l h hl hs] at hr
    cases hr
    rfl
  · rw [definition_new_of_unsigned ops sequence declaration parent_scope field_name index
      root_name l h hl hs] at hr
    cases hr
    cases hnull

/-- C2, evaluated on the code: with an empty parent scope and a length path that
does not resolve, or resolves to a signed field, `_sequence_definition_new`
returns `NULL` and the parent scope is left holding `seq`, registered to the
address of the released definition. -/
theorem definition_new_failure_leaves_residue :
    (∃ r : definition_new_result Nat,
      _sequence_definition_new (example_ops none) 4096 (example_declaration int32_declaration)
        empty_scope (some "seq") 0 none = .ok r
      ∧ r.ret.isNone = true
      ∧ r.parent_scope.definitions = [(some "seq", 4096)]
      ∧ r.parent_scope ≠ empty_scope)
    ∧ (∃ r : definition_new_result Nat,
      _sequence_definition_new (example_ops (some (signed_length_field 3))) 4096
        (example_declaration int32_declaration) empty_scope (some "seq") 0 none = .ok r
      ∧ r.ret.isNone = true
      ∧ r.parent_scope.definitions = [(some "seq", 4096)]
      ∧ r.parent_scope ≠ empty_scope) := by
  refine ⟨⟨_, rfl, rfl, rfl, by decide⟩, ⟨_, rfl, rfl, rfl, by decide⟩⟩

/-- The storage chosen for an integer element declaration. -/
theorem sequence_storage_integer {δ : Type} (elem : declaration) (di : declaration_integer)
    (hk : elem.kind = .integer di) :
    (sequence_storage elem : Option String × Option (GPtrArray δ))
      = if di.encoding = .CTF_STRING_UTF8 ∨ di.encoding = .CTF_STRING_ASCII then
          if di.len = CHAR_BIT ∧ elem.alignment = CHAR_BIT then (some "", none)
          else (some "", some [])
        else (none, some []) := by
  unfold sequence_storage
  rw [hk]

/-- The storage chosen for an element declaration that is not an integer. -/
theorem sequence_storage_other {δ : Type} (elem : declaration)
    (hk : ∀ di, elem.kind ≠ .integer di) :
    (sequence_storage elem : Option String × Option (GPtrArray δ)) = (none, some []) := by
  unfold sequence_storage
  cases h : elem.kind with
  | integer di => exact absurd h (hk di)
  | _ => rfl

/-- The child list chosen at lines 157-176 is absent exactly for a text-encoded
integer of width and alignment `CHAR_BIT`. -/
theorem sequence_storage_elems_none {δ : Type} (elem : declaration) :
    (sequence_storage elem : Option String × Option (GPtrArray δ)).2 = none
      ↔ is_char_declaration elem := by
  unfold is_char_declaration
  by_cases hk : ∃ di, elem.kind = .integer di
  · obtain ⟨di, hk⟩ := hk
    rw [sequence_storage_integer elem di hk]
    by_cases henc : di.encoding = .CTF_STRING_UTF8 ∨ di.encoding = .CTF_STRING_ASCII
    · by_cases hw : di.len = CHAR_BIT ∧ elem.alignment = CHAR_BIT
      · rw [if_pos henc, if_pos hw]
        exact ⟨fun _ => ⟨di, hk, henc, hw.1, hw.2⟩, fun _ => rfl⟩
      · rw [if_pos henc, if_neg hw]
        constructor
        · intro h
          cases h
        · rintro ⟨di2, h2, _, h3, h4⟩
          rw [hk] at h2
          cases h2
          exact absurd ⟨h3, h4⟩ hw
    · rw [if_neg henc]
      constructor
      · intro h
        cases h
      · rintro ⟨di2, h2, h3, _⟩
        rw [hk] at h2
        cases h2
        exact absurd h3 henc
  · rw [sequence_storage_other elem (fun di h => hk ⟨di, h⟩)]
    constructor
    · intro h
      cases h
    · rintro ⟨di, h, _⟩
      exact absurd ⟨di, h⟩ hk

/-- The child list chosen at lines 157-176 is absent or empty. -/
theorem sequence_storage_elems_empty {δ : Type} (elem : declaration) :
    (sequence_storage elem : Option String × Option (GPtrArray δ)).2 = none
    ∨ (sequence_storage elem : Option String × Option (GPtrArray δ)).2 = some [] := by
  by_cases hk : ∃ di, elem.kind = .integer di
  · obtain ⟨di, hk⟩ := hk
    rw [sequence_storage_integer elem di hk]
    by_cases henc : di.encoding = .CTF_STRING_UTF8 ∨ di.encoding = .CTF_STRING_ASCII
    · by_cases hw : di.len = CHAR_BIT ∧ elem.alignment = CHAR_BIT
      · rw [if_pos henc, if_pos hw]
        exact Or.inl rfl
      · rw [if_pos henc, if_neg hw]
        exact Or.inr rfl
    · rw [if_neg henc]
      exact Or.inr rfl
  · rw [sequence_storage_other elem (fun di h => hk ⟨di, h⟩)]
    exact Or.inr rfl

/-- A returned definition is the one built on the unsigned path. -/
theorem definition_new_returned {δ : Type} (ops : scope_ops) (sequence : Nat)
    (declaration : declaration_sequence) (parent_scope : definition_scope)
    (field_name : GQuark) (index : Int) (root_name : Option String)
    (r : definition_new_result δ) (d : definition_sequence δ)
    (hr : _sequence_definition_new ops sequence declaration parent_scope field_name
            index root_name = .ok r)
    (hd : r.ret = some d) :
    ∃ l, parent_scope.registered field_name = false
      ∧ resolved_length ops sequence declaration parent_scope field_name root_name = some l
      ∧ l.declaration.signedness = false
      ∧ d.length = definition_ref l
      ∧ d.string = (sequence_storage declaration.elem : _ × Option (GPtrArray δ)).1
      ∧ d.elems = (sequence_storage declaration.elem).2
      ∧ d.p.index = (if root_name.isSome then INT_MAX else index)
      ∧ d.p.name = field_name
      ∧ d.declaration = { declaration with p := declaration_ref declaration.p } := by
  rcases definition_new_cases ops sequence declaration parent_scope field_name root_name with
    h | ⟨h, hl⟩ | ⟨l, h, hl, hs⟩ | ⟨l, h, hl, hs⟩
  · rw [definition_new_of_registered ops sequence declaration parent_scope field_name index
      root_name h] at hr
    cases hr
  · rw [definition_new_of_unresolved ops sequence declaration parent_scope field_name index
      root_name h hl] at hr
    cases hr
    cases hd
  · rw [definition_new_of_signed ops sequence declaration parent_scope field_name index
      root_name l h hl hs] at hr
    cases hr
    cases hd
  · rw [definition_new_of_unsigned ops sequence declaration parent_scope field_name index
      root_name l h hl hs] at hr
    cases hr
    cases hd
    exact ⟨l, h, hl, hs, rfl, rfl, rfl, rfl, rfl, rfl⟩

/-- C6, the claim as stated fails: the length path does not resolve, yet no
`NULL` is returned, because `seq` is already registered in the parent scope
and the assertion of line 141 ends the call before the lookup. -/
theorem definition_new_unresolved_without_null :
    resolved_length (example_ops none) 4096 (example_declaration int32_declaration)
        seq_scope (some "seq") none = none
    ∧ (_sequence_definition_new (example_ops none) 4096
        (example_declaration int32_declaration) seq_scope (some "seq") 0 none
        : Except Fault (definition_new_result Nat)) = .error .assertion_failure := by
  refine ⟨rfl, rfl⟩

/-- C6, amended: when `field_name` is not already registered in the parent
scope, `_sequence_definition_new` returns, and it returns failure (`NULL`) if and
only if the length-field path cannot be resolved by `lookup_path_definition` or
the resolved length field's integer declaration is signed; for every unsigned
resolved length field it returns a definition whose length reference is the
resolved definition (with the reference taken at line 155). -/
theorem definition_new_null_iff {δ : Type} (ops : scope_ops) (sequence : Nat)
    (declaration : declaration_sequence) (parent_scope : definition_scope)
    (field_name : GQuark) (index : Int) (root_name : Option String)
    (hreg : parent_scope.registered field_name = false) :
    ∃ r : definition_new_result δ,
      _sequence_definition_new ops sequence declaration parent_scope field_name
        index root_name = .ok r
      ∧ (r.ret.isNone = true ↔
          (resolved_length ops sequence declaration parent_scope field_name root_name = none
            ∨ ∃ l, resolved_length ops sequence declaration parent_scope field_name root_name
                = some l ∧ l.declaration.signedness = true))
      ∧ (∀ l, resolved_length ops sequence declaration parent_scope field_name root_name
            = some l → l.declaration.signedness = false →
          ∃ d, r.ret = some d ∧ d.length = definition_ref l) := by
  rcases definition_new_cases ops sequence declaration parent_scope field_name root_name with
    h | ⟨h, hl⟩ | ⟨l, h, hl, hs⟩ | ⟨l, h, hl, hs⟩
  · rw [hreg] at h
    cases h
  · refine ⟨_, definition_new_of_unresolved ops sequence declaration parent_scope field_name
      index root_name h hl, ?_, ?_⟩
    · exact ⟨fun _ => Or.inl hl, fun _ => rfl⟩
    · intro l h1
      rw [hl] at h1
      cases h1
  · refine ⟨_, definition_new_of_signed ops sequence declaration parent_scope field_name
      index root_name l h hl hs, ?_, ?_⟩
    · exact ⟨fun _ => Or.inr ⟨l, hl, hs⟩, fun _ => rfl⟩
    · intro l2 h1 h2
      rw [hl] at h1
      cases h1
      rw [hs] at h2
      cases h2
  · refine ⟨_, definition_new_of_unsigned ops sequence declaration parent_scope field_name
      index root_name l h hl hs, ?_, ?_⟩
    · constructor
      · intro hn
        cases hn
      · rintro (h1 | ⟨l2, h1, h2⟩)
        · rw [hl] at h1
          cases h1
        · rw [hl] at h1
          cases h1
          rw [hs] at h2
          cases h2
    · intro l2 h1 _
      rw [hl] at h1
      cases h1
      exact ⟨_, rfl, rfl⟩

/-- C6, amended, at a concrete input: an empty parent scope and a length path
that resolves to an unsigned field holding `3` with reference count `1`. -/
theorem definition_new_null_iff_witness :
    empty_scope.registered (some "seq") = false
    ∧ ∃ r : definition_new_result Nat,
      _sequence_definition_new (example_ops (some (length_field 3))) 4096
        (example_declaration int32_declaration) empty_scope (some "seq") 0 none = .ok r
      ∧ (r.ret.isNone = true ↔
          (resolved_length (example_ops (some (length_field 3))) 4096
              (example_declaration int32_declaration) empty_scope (some "seq") none = none
            ∨ ∃ l, resolved_length (example_ops (some (length_field 3))) 4096
                (example_declaration int32_declaration) empty_scope (some "seq") none = some l
              ∧ l.declaration.signedness = true))
      ∧ (∀ l, resolved_length (example_ops (some (length_field 3))) 4096
              (example_declaration int32_declaration) empty_scope (some "seq") none = some l →
          l.declaration.signedness = false →
          ∃ d, r.ret = some d ∧ d.length = definition_ref l) :=
  ⟨rfl, definition_new_null_iff (example_ops (some (length_field 3))) 4096
    (example_declaration int32_declaration) empty_scope (some "seq") 0 none rfl⟩

/-- C7: for every successfully constructed sequence definition, the definition
is in string mode (no child list) if and only if the element declaration is an
integer with encoding UTF-8 or ASCII, width exactly 8 bits and alignment exactly
8 bits; in every other case the definition holds an empty child list. -/
theorem definition_new_string_mode_iff {δ : Type} (ops : scope_ops) (sequence : Nat)
    (declaration : declaration_sequence) (parent_scope : definition_scope)
    (field_name : GQuark) (index : Int) (root_name : Option String)
    (r : definition_new_result δ) (d : definition_sequence δ)
    (hr : _sequence_definition_new ops sequence declaration parent_scope field_name
            index root_name = .ok r)
    (hd : r.ret = some d) :
    (d.elems = none ↔ is_char_declaration declaration.elem)
    ∧ (¬ is_char_declaration declaration.elem → d.elems = some [] ∧ elems_len d = 0) := by
  obtain ⟨l, _, _, _, _, _, he, _⟩ := definition_new_returned ops sequence declaration
    parent_scope field_name index root_name r d hr hd
  have hiff := sequence_storage_elems_none (δ := δ) declaration.elem
  rw [← he] at hiff
  refine ⟨hiff, fun hn => ?_⟩
  have hne : d.elems ≠ none := fun h => hn (hiff.mp h)
  rcases sequence_storage_elems_empty (δ := δ) declaration.elem with h | h
  · rw [← he] at h
    exact absurd h hne
  · rw [← he] at h
    simp [elems_len, h]

/-- C7 at concrete inputs: a UTF-8 character element gives string mode, a 32-bit
integer element gives an empty child list. -/
theorem definition_new_string_mode_iff_witness :
    (∃ (r : definition_new_result Nat) (d : definition_sequence Nat),
      _sequence_definition_new (example_ops (some (length_field 3))) 4096
        (example_declaration char_declaration) empty_scope (some "seq") 0 none = .ok r
      ∧ r.ret = some d
      ∧ (d.elems = none ↔ is_char_declaration (example_declaration char_declaration).elem)
      ∧ d.elems = none)
    ∧ (∃ (r : definition_new_result Nat) (d : definition_sequence Nat),
      _sequence_definition_new (example_ops (some (length_field 3))) 4096
        (example_declaration int32_declaration) empty_scope (some "seq") 0 none = .ok r
      ∧ r.ret = some d
      ∧ ¬ is_char_declaration (example_declaration int32_declaration).elem
      ∧ d.elems = some [] ∧ elems_len d = 0) := by
  have hint : ¬ is_char_declaration (example_declaration int32_declaration).elem := by
    rintro ⟨di, h1, _, h2, _⟩
    cases h1
    revert h2
    decide
  exact ⟨⟨_, _, rfl, rfl,
      (definition_new_string_mode_iff (example_ops (some (length_field 3))) 4096
        (example_declaration char_declaration) empty_scope (some "seq") 0 none _ _ rfl rfl).1,
      rfl⟩,
    ⟨_, _, rfl, rfl, hint,
      (definition_new_string_mode_iff (example_ops (some (length_field 3))) 4096
        (example_declaration int32_declaration) empty_scope (some "seq") 0 none _ _ rfl rfl).2
        hint⟩⟩

/-- C9, the claim as stated fails: `seq` is already registered in the parent
scope and the length path resolves to an unsigned field; the call ends on the
failed assertion of line 141 and returns nothing to its caller. -/
theorem definition_new_duplicate_aborts :
    seq_scope.registered (some "seq") = true
    ∧ (_sequence_definition_new (example_ops (some (length_field 3))) 4096
        (example_declaration int32_declaration) seq_scope (some "seq") 0 none
        : Except Fault (definition_new_result Nat)) = .error .assertion_failure
    ∧ ∀ r : definition_new_result Nat,
        _sequence_definition_new (example_ops (some (length_field 3))) 4096
          (example_declaration int32_declaration) seq_scope (some "seq") 0 none ≠ .ok r := by
  refine ⟨rfl, rfl, ?_⟩
  intro r h
  cases h

/-- C9, amended: for every parent scope in which `field_name` is already
registered, `register_field_definition` returns a non-zero status and
`_sequence_definition_new` stops at `assert(!ret)`: the call ends on the failed
assertion and returns no outcome, neither a definition nor `NULL`. -/
theorem definition_new_duplicate_assertion {δ : Type} (ops : scope_ops) (sequence : Nat)
    (declaration : declaration_sequence) (parent_scope : definition_scope)
    (field_name : GQuark) (index : Int) (root_name : Option String)
    (hreg : parent_scope.registered field_name = true) :
    (register_field_definition field_name sequence parent_scope).1 ≠ 0
    ∧ (_sequence_definition_new ops sequence declaration parent_scope field_name index
        root_name : Except Fault (definition_new_result δ)) = .error .assertion_failure
    ∧ ∀ r : definition_new_result δ,
        _sequence_definition_new ops sequence declaration parent_scope field_name index
          root_name ≠ .ok r := by
  have h := definition_new_of_registered (δ := δ) ops sequence declaration parent_scope
    field_name index root_name hreg
  refine ⟨by simp [register_field_definition, hreg], h, ?_⟩
  intro r hr
  rw [h] at hr
  cases hr

/-- C9, amended, at a concrete input: `seq` registered twice, with a root name. -/
theorem definition_new_duplicate_assertion_witness :
    seq_scope.registered (some "seq") = true
    ∧ (register_field_definition (some "seq") 8192 seq_scope).1 ≠ 0
    ∧ (_sequence_definition_new (example_ops none) 8192
        (example_declaration char_declaration) seq_scope (some "seq") 7 (some "root")
        : Except Fault (definition_new_result Nat)) = .error .assertion_failure
    ∧ ∀ r : definition_new_result Nat,
        _sequence_definition_new (example_ops none) 8192
          (example_declaration char_declaration) seq_scope (some "seq") 7 (some "root")
          ≠ .ok r :=
  ⟨rfl, definition_new_duplicate_assertion (example_ops none) 8192
    (example_declaration char_declaration) seq_scope (some "seq") 7 (some "root") rfl⟩

/-! ## Properties of `sequence_declaration_new` -/

/-- C12: for every length-field name and element declaration,
`sequence_declaration_new` returns a declaration with kind tag
`CTF_TYPE_SEQUENCE`, reference count exactly `1`, alignment equal to the element
declaration's alignment and `elem` the given element declaration, whose
reference count it increases by exactly `1`; the function is total. -/
theorem sequence_declaration_new_fields
    (append_scope_path : String → List GQuark → List GQuark) (length : String)
    (elem_declaration : declaration) :
    (sequence_declaration_new append_scope_path length elem_declaration).p.id
        = .CTF_TYPE_SEQUENCE
    ∧ (sequence_declaration_new append_scope_path length elem_declaration).p.ref = 1
    ∧ (sequence_declaration_new append_scope_path length elem_declaration).p.alignment
        = elem_declaration.alignment
    ∧ (sequence_declaration_new append_scope_path length elem_declaration).elem.kind
        = elem_declaration.kind
    ∧ (sequence_declaration_new append_scope_path length elem_declaration).elem.alignment
        = elem_declaration.alignment
    ∧ (sequence_declaration_new append_scope_path length elem_declaration).elem.ref
        = elem_declaration.ref + 1
    ∧ (sequence_declaration_new append_scope_path length elem_declaration).length_name
        = append_scope_path length [] :=
  ⟨rfl, rfl, rfl, rfl, rfl, rfl, rfl⟩

/-! ## Properties of `sequence_len` -/

/-- The function `sequence_rw` does not write the length field. -/
theorem sequence_rw_length {σ δ : Type} (env : Env σ δ) (pos : σ)
    (d : definition_sequence δ) :
    (sequence_rw env pos d).definition.length = d.length := by
  unfold sequence_rw
  cases d.elems <;> rfl

/-- C13: for every sequence definition state, `sequence_len` returns exactly the
current unsigned value of the referenced length field, whatever the child list
is; after a series of `sequence_rw` calls it is the value the length field held
at the last call. After decoding with `L = 5` and then `L = 3` it returns `3`
while the child list still has `5` entries. -/
theorem sequence_len_is_length_field {σ δ : Type} (env : Env σ δ) (pos : σ)
    (d : definition_sequence δ) (elems : Option (GPtrArray δ)) (Ls : List Nat) (L : Nat) :
    sequence_len d = d.length.value_unsigned
    ∧ sequence_len { d with elems := elems } = sequence_len d
    ∧ sequence_len (sequence_rw_series env (Ls ++ [L]) pos d).2 = L
    ∧ sequence_len (sequence_rw_series (trace_env some) [5, 3] [] (list_definition [] 0)).2 = 3
    ∧ elems_len (sequence_rw_series (trace_env some) [5, 3] [] (list_definition [] 0)).2 = 5 := by
  refine ⟨rfl, rfl, ?_, by decide, by decide⟩
  rw [sequence_rw_series_append]
  simp only [sequence_len, sequence_rw_length]
  rfl

/-! ## Further properties of `_sequence_definition_new` -/

/-- C14: for every successful `_sequence_definition_new` call, the ordering index
of the definition equals the given index when `root_name` is absent (`NULL`) and
equals `INT_MAX` when `root_name` is supplied, whatever index was given; its name
equals the given `field_name`. -/
theorem definition_new_index_and_name {δ : Type} (ops : scope_ops) (sequence : Nat)
    (declaration : declaration_sequence) (parent_scope : definition_scope)
    (field_name : GQuark) (index : Int) (root_name : Option String)
    (r : definition_new_result δ) (d : definition_sequence δ)
    (hr : _sequence_definition_new ops sequence declaration parent_scope field_name
            index root_name = .ok r)
    (hd : r.ret = some d) :
    (root_name = none → d.p.index = index)
    ∧ (∀ name, root_name = some name → d.p.index = INT_MAX)
    ∧ d.p.name = field_name := by
  obtain ⟨l, _, _, _, _, _, _, hidx, hname, _⟩ := definition_new_returned ops sequence
    declaration parent_scope field_name index root_name r d hr hd
  refine ⟨?_, ?_, hname⟩
  · intro h
    rw [hidx, h]
    rfl
  · intro name h
    rw [hidx, h]
    rfl

/-- C14 at concrete inputs: index `7` without a root name, index `7` with the
root name `root`. -/
theorem definition_new_index_and_name_witness :
    (∃ (r : definition_new_result Nat) (d : definition_sequence Nat),
      _sequence_definition_new (example_ops (some (length_field 3))) 4096
        (example_declaration int32_declaration) empty_scope (some "seq") 7 none = .ok r
      ∧ r.ret = some d ∧ d.p.index = 7 ∧ d.p.name = some "seq")
    ∧ (∃ (r : definition_new_result Nat) (d : definition_sequence Nat),
      _sequence_definition_new (example_ops (some (length_field 3))) 4096
        (example_declaration int32_declaration) empty_scope (some "seq") 7 (some "root")
        = .ok r
      ∧ r.ret = some d ∧ d.p.index = INT_MAX ∧ d.p.name = some "seq") :=
  ⟨⟨_, _, rfl, rfl,
      (definition_new_index_and_name (example_ops (some (length_field 3))) 4096
        (example_declaration int32_declaration) empty_scope (some "seq") 7 none _ _
        rfl rfl).1 rfl,
      (definition_new_index_and_name (example_ops (some (length_field 3))) 4096
        (example_declaration int32_declaration) empty_scope (some "seq") 7 none _ _
        rfl rfl).2.2⟩,
    ⟨_, _, rfl, rfl,
      (definition_new_index_and_name (example_ops (some (length_field 3))) 4096
        (example_declaration int32_declaration) empty_scope (some "seq") 7 (some "root") _ _
        rfl rfl).2.1 "root" rfl,
      (definition_new_index_and_name (example_ops (some (length_field 3))) 4096
        (example_declaration int32_declaration) empty_scope (some "seq") 7 (some "root") _ _
        rfl rfl).2.2⟩⟩

/-- C15: reference accounting of `_sequence_definition_new`. On success the
reference count of the declaration and the reference count of the resolved
length-field definition are each exactly `1` higher than before the call; on
failure (lookup failed or signed length field) the declaration's count equals
its value before the call and the resolved length field, if any, is as before. -/
theorem definition_new_reference_counts {δ : Type} (ops : scope_ops) (sequence : Nat)
    (declaration : declaration_sequence) (parent_scope : definition_scope)
    (field_name : GQuark) (index : Int) (root_name : Option String)
    (r : definition_new_result δ)
    (hr : _sequence_definition_new ops sequence declaration parent_scope field_name
            index root_name = .ok r) :
    (∀ d, r.ret = some d →
      r.declaration.p.ref = declaration.p.ref + 1
      ∧ d.declaration = r.declaration
      ∧ ∃ l, resolved_length ops sequence declaration parent_scope field_name root_name
            = some l
          ∧ r.len_parent = some d.length
          ∧ d.length.ref = l.ref + 1)
    ∧ (r.ret = none →
      r.declaration.p.ref = declaration.p.ref
      ∧ r.len_parent
          = resolved_length ops sequence declaration parent_scope field_name root_name) := by
  have hunref : (declaration_unref (declaration_ref declaration.p)).ref = declaration.p.ref := by
    simp [declaration_unref, declaration_ref]
  rcases definition_new_cases ops sequence declaration parent_scope field_name root_name with
    h | ⟨h, hl⟩ | ⟨l, h, hl, hs⟩ | ⟨l, h, hl, hs⟩
  · rw [definition_new_of_registered ops sequence declaration parent_scope field_name index
      root_name h] at hr
    cases hr
  · rw [definition_new_of_unresolved ops sequence declaration parent_scope field_name index
      root_name h hl] at hr
    cases hr
    refine ⟨fun d hd => ?_, fun _ => ⟨hunref, hl.symm⟩⟩
    cases hd
  · rw [definition_new_of_signed ops sequence declaration parent_scope field_name index
      root_name l h hl hs] at hr
    cases hr
    refine ⟨fun d hd => ?_, fun _ => ⟨hunref, hl.symm⟩⟩
    cases hd
  · rw [definition_new_of_unsigned ops sequence declaration parent_scope field_name index
      root_name l h hl hs] at hr
    cases hr
    refine ⟨fun d hd => ?_, fun hn => ?_⟩
    · cases hd
      exact ⟨rfl, rfl, l, hl, rfl, rfl⟩
    · cases hn

/-- C15 at concrete inputs: a successful call (declaration count `1`, length
field count `1`) and a call that fails on a signed length field. -/
theorem definition_new_reference_counts_witness :
    (∃ (r : definition_new_result Nat) (d : definition_sequence Nat),
      _sequence_definition_new (example_ops (some (length_field 3))) 4096
        (example_declaration int32_declaration) empty_scope (some "seq") 0 none = .ok r
      ∧ r.ret = some d
      ∧ r.declaration.p.ref = 1 + 1
      ∧ d.length.ref = 1 + 1)
    ∧ (∃ r : definition_new_result Nat,
      _sequence_definition_new (example_ops (some (signed_length_field 3))) 4096
        (example_declaration int32_declaration) empty_scope (some "seq") 0 none = .ok r
      ∧ r.ret = none
      ∧ r.declaration.p.ref = 1
      ∧ r.len_parent = some (signed_length_field 3)) := by
  have h1 := definition_new_reference_counts (δ := Nat) (example_ops (some (length_field 3)))
    4096 (example_declaration int32_declaration) empty_scope (some "seq") 0 none _ rfl
  have h2 := definition_new_reference_counts (δ := Nat)
    (example_ops (some (signed_length_field 3))) 4096
    (example_declaration int32_declaration) empty_scope (some "seq") 0 none _ rfl
  refine ⟨⟨_, _, rfl, rfl, (h1.1 _ rfl).1, ?_⟩, ⟨_, rfl, rfl, (h2.2 rfl).1, (h2.2 rfl).2⟩⟩
  obtain ⟨l, hl, _, href⟩ := (h1.1 _ rfl).2.2
  cases hl
  exact href

/-- The character buffer chosen at lines 157-176 is present, and empty, exactly
for a text-encoded integer. -/
theorem sequence_storage_string {δ : Type} (elem : declaration) :
    ((sequence_storage elem : Option String × Option (GPtrArray δ)).1 = some ""
      ∧ is_text_declaration elem)
    ∨ ((sequence_storage elem : Option String × Option (GPtrArray δ)).1 = none
      ∧ ¬ is_text_declaration elem) := by
  unfold is_text_declaration
  by_cases hk : ∃ di, elem.kind = .integer di
  · obtain ⟨di, hk⟩ := hk
    rw [sequence_storage_integer elem di hk]
    by_cases henc : di.encoding = .CTF_STRING_UTF8 ∨ di.encoding = .CTF_STRING_ASCII
    · left
      by_cases hw : di.len = CHAR_BIT ∧ elem.alignment = CHAR_BIT
      · rw [if_pos henc, if_pos hw]
        exact ⟨rfl, di, hk, henc⟩
      · rw [if_pos henc, if_neg hw]
        exact ⟨rfl, di, hk, henc⟩
    · right
      rw [if_neg henc]
      refine ⟨rfl, ?_⟩
      rintro ⟨di2, h2, h3⟩
      rw [hk] at h2
      cases h2
      exact henc h3
  · right
    rw [sequence_storage_other elem (fun di h => hk ⟨di, h⟩)]
    refine ⟨rfl, ?_⟩
    rintro ⟨di, h, _⟩
    exact hk ⟨di, h⟩

/-- C16, the claim as stated fails: for a UTF-8 integer element of width and
alignment `16`, the constructed definition holds both storages, an empty
character buffer and an empty child list. -/
theorem definition_new_both_storages :
    ∃ (r : definition_new_result Nat) (d : definition_sequence Nat),
      _sequence_definition_new (example_ops (some (length_field 3))) 4096
        (example_declaration wide_char_declaration) empty_scope (some "seq") 0 none = .ok r
      ∧ r.ret = some d
      ∧ d.string = some ""
      ∧ d.elems = some [] :=
  ⟨_, _, rfl, rfl, rfl, rfl⟩

/-- C16, amended: for every successfully constructed sequence definition at
least one storage is present (never neither); the child list is absent exactly
when the element is a text-encoded integer of width `8` and alignment `8`; the
character buffer is present exactly when the element is a text-encoded integer;
so a text-encoded integer element that is not 8-bit wide and 8-bit aligned
yields both an empty child list and an empty character buffer. -/
theorem definition_new_storage {δ : Type} (ops : scope_ops) (sequence : Nat)
    (declaration : declaration_sequence) (parent_scope : definition_scope)
    (field_name : GQuark) (index : Int) (root_name : Option String)
    (r : definition_new_result δ) (d : definition_sequence δ)
    (hr : _sequence_definition_new ops sequence declaration parent_scope field_name
            index root_name = .ok r)
    (hd : r.ret = some d) :
    (d.string ≠ none ∨ d.elems ≠ none)
    ∧ (d.elems = none ↔ is_char_declaration declaration.elem)
    ∧ (d.string ≠ none ↔ is_text_declaration declaration.elem)
    ∧ (is_text_declaration declaration.elem → ¬ is_char_declaration declaration.elem →
        d.string = some "" ∧ d.elems = some []) := by
  obtain ⟨l, _, _, _, _, hstr, he, _⟩ := definition_new_returned ops sequence declaration
    parent_scope field_name index root_name r d hr hd
  have hiff := sequence_storage_elems_none (δ := δ) declaration.elem
  rw [← he] at hiff
  have hemp := sequence_storage_elems_empty (δ := δ) declaration.elem
  rw [← he] at hemp
  have hs := sequence_storage_string (δ := δ) declaration.elem
  rw [← hstr] at hs
  have hchar_text : is_char_declaration declaration.elem →
      is_text_declaration declaration.elem := by
    rintro ⟨di, h1, h2, _⟩
    exact ⟨di, h1, h2⟩
  refine ⟨?_, hiff, ?_, ?_⟩
  · rcases hemp with h | h
    · left
      rcases hs with ⟨h1, _⟩ | ⟨_, h2⟩
      · rw [h1]
        exact fun hc => by cases hc
      · exact absurd (hchar_text (hiff.mp h)) h2
    · right
      rw [h]
      exact fun hc => by cases hc
  · rcases hs with ⟨h1, h2⟩ | ⟨h1, h2⟩
    · rw [h1]
      exact ⟨fun _ => h2, fun _ hc => by cases hc⟩
    · rw [h1]
      exact ⟨fun hc => absurd rfl hc, fun ht => absurd ht h2⟩
  · intro ht hnc
    rcases hs with ⟨h1, _⟩ | ⟨_, h2⟩
    · refine ⟨h1, ?_⟩
      rcases hemp with h | h
      · exact absurd (hiff.mp h) hnc
      · exact h
    · exact absurd ht h2

/-- C16, amended, at a concrete input: a 16-bit UTF-8 element gives both an empty
character buffer and an empty child list. -/
theorem definition_new_storage_witness :
    is_text_declaration (example_declaration wide_char_declaration).elem
    ∧ ¬ is_char_declaration (example_declaration wide_char_declaration).elem
    ∧ ∃ (r : definition_new_result Nat) (d : definition_sequence Nat),
      _sequence_definition_new (example_ops (some (length_field 3))) 4096
        (example_declaration wide_char_declaration) empty_scope (some "seq") 0 none = .ok r
      ∧ r.ret = some d
      ∧ (d.string ≠ none ∨ d.elems ≠ none)
      ∧ d.string = some "" ∧ d.elems = some [] := by
  have htext : is_text_declaration (example_declaration wide_char_declaration).elem :=
    ⟨_, rfl, Or.inl rfl⟩
  have hnchar : ¬ is_char_declaration (example_declaration wide_char_declaration).elem := by
    rintro ⟨di, h1, _, h2, _⟩
    cases h1
    revert h2
    decide
  have h := definition_new_storage (δ := Nat) (example_ops (some (length_field 3))) 4096
    (example_declaration wide_char_declaration) empty_scope (some "seq") 0 none _ _ rfl rfl
  exact ⟨htext, hnchar, _, _, rfl, rfl, h.1, h.2.2.2 htext hnchar⟩

/-! ## Further properties of `sequence_rw` -/

/-- C17: for every element-list sequence definition with `C` children and
length-field value `L ≤ C`, `sequence_rw` leaves the child list as it was (same
size `C`, same child in every slot, so in `[L, C)` too) and leaves the world as
it was: no child is freed, replaced, constructed again or passed to `generic_rw`. -/
theorem sequence_rw_keeps_children {σ δ : Type} (env : Env σ δ) (pos : σ)
    (d : definition_sequence δ) (elems : GPtrArray δ)
    (he : d.elems = some elems) (hle : d.length.value_unsigned ≤ elems.length) :
    (sequence_rw env pos d).definition.elems = some elems
    ∧ elems_len (sequence_rw env pos d).definition = elems.length
    ∧ (∀ j, d.length.value_unsigned ≤ j → j < elems.length →
        ∃ elems1, (sequence_rw env pos d).definition.elems = some elems1
          ∧ elems1[j]? = elems[j]?)
    ∧ (sequence_rw env pos d).world = pos := by
  rw [sequence_rw_no_pass env pos d elems he hle]
  refine ⟨he, ?_, fun j _ _ => ⟨elems, he, rfl⟩, rfl⟩
  simp [elems_len, he]

/-- C17 at a concrete input: children `100, 101, 102` and length `1`; the list of
calls stays empty and the three children stay in place. -/
theorem sequence_rw_keeps_children_witness :
    (list_definition [some 100, some 101, some 102] 1).elems
        = some [some 100, some 101, some 102]
    ∧ (list_definition [some 100, some 101, some 102] 1).length.value_unsigned
        ≤ [some 100, some 101, some 102].length
    ∧ (sequence_rw (trace_env some) [] (list_definition [some 100, some 101, some 102] 1)
        ).definition.elems = some [some 100, some 101, some 102]
    ∧ (sequence_rw (trace_env some) [] (list_definition [some 100, some 101, some 102] 1)
        ).world = [] :=
  ⟨rfl, by decide,
    (sequence_rw_keeps_children (trace_env some) []
      (list_definition [some 100, some 101, some 102] 1) [some 100, some 101, some 102]
      rfl (by decide)).1,
    (sequence_rw_keeps_children (trace_env some) []
      (list_definition [some 100, some 101, some 102] 1) [some 100, some 101, some 102]
      rfl (by decide)).2.2.2⟩

/-- C18, evaluated on the code: a definition constructed by
`_sequence_definition_new`, then `sequence_rw` with length `3` on a dispatcher
that returns `-5` on the first child. Line 53 has already set the size to `3`, so
the call leaves the slots `1` and `2`, below the size, holding `NULL`; the loop
of `_sequence_definition_free` then dereferences a `NULL` field. -/
theorem sequence_rw_error_leaves_null_slots :
    ∃ (r : definition_new_result Nat) (d : definition_sequence Nat),
      _sequence_definition_new (example_ops (some (length_field 3))) 4096
        (example_declaration int32_declaration) empty_scope (some "seq") 0 none = .ok r
      ∧ r.ret = some d
      ∧ (sequence_rw (failing_env 100 (-5)) [] d).ret = .ok (-5)
      ∧ (sequence_rw (failing_env 100 (-5)) [] d).definition.elems
          = some [some 100, none, none]
      ∧ elems_len (sequence_rw (failing_env 100 (-5)) [] d).definition = 3
      ∧ _sequence_definition_free trace_definition_free
          (sequence_rw (failing_env 100 (-5)) [] d).world
          (sequence_rw (failing_env 100 (-5)) [] d).definition
          = .error .null_pointer_dereference :=
  ⟨_, _, rfl, rfl, rfl, rfl, rfl, rfl⟩

/-- After a call of `sequence_rw` that returned `0`, the child list has at least
as many slots as the length field asks for. -/
theorem sequence_rw_ok_size {σ δ : Type} (env : Env σ δ) (pos : σ)
    (d : definition_sequence δ) (elems : GPtrArray δ) (he : d.elems = some elems)
    (hret : (sequence_rw env pos d).ret = .ok 0) :
    ∃ elems1, (sequence_rw env pos d).definition.elems = some elems1
      ∧ d.length.value_unsigned ≤ elems1.length := by
  rcases Nat.lt_or_ge elems.length d.length.value_unsigned with hlt | hge
  · rw [sequence_rw_grow env pos d elems he hlt] at hret ⊢
    obtain ⟨hb, _⟩ := sequence_rw_loop_ret_zero env d _ _ _ _ hret
    refine ⟨_, rfl, ?_⟩
    rw [sequence_rw_loop_length]
    rcases hb with h0 | hb
    · omega
    · omega
  · rw [sequence_rw_no_pass env pos d elems he hge]
    exact ⟨elems, he, hge⟩

/-- After a call of `sequence_rw` on an element-list definition that returned
`0`, every index below the length is below the size of the child list:
`sequence_index` returns the slot and the assertion of line 222 holds. -/
theorem sequence_index_after_rw {σ δ : Type} (env : Env σ δ) (pos : σ)
    (d : definition_sequence δ) (elems : GPtrArray δ) (he : d.elems = some elems)
    (hret : (sequence_rw env pos d).ret = .ok 0)
    (i : Nat) (hi : i < sequence_len (sequence_rw env pos d).definition) :
    ∃ (elems1 : GPtrArray δ) (h : i < elems1.length),
      (sequence_rw env pos d).definition.elems = some elems1
      ∧ sequence_index (sequence_rw env pos d).definition i = .ok (elems1.get ⟨i, h⟩) := by
  obtain ⟨elems1, h1, h2⟩ := sequence_rw_ok_size env pos d elems he hret
  have hlen : sequence_len (sequence_rw env pos d).definition = d.length.value_unsigned := by
    simp only [sequence_len, sequence_rw_length]
  have hlt : i < elems1.length := by
    rw [hlen] at hi
    exact Nat.lt_of_lt_of_le hi h2
  have hn : ¬ i ≥ (sequence_rw env pos d).definition.length.value_unsigned :=
    Nat.not_le.mpr hi
  refine ⟨elems1, hlt, h1, ?_⟩
  simp [sequence_index, h1, hn, hlt]

/-- C19, evaluated on the code: a definition of length `2` whose first
`sequence_rw` stops on the status `-5` of the first child, then a second
`sequence_rw` with the length unchanged, which returns `0`. For `i = 1`, below
the length, the assertion holds but `sequence_index` returns `NULL`. -/
theorem sequence_index_null_after_success :
    (sequence_rw (failing_env 100 (-5)) [] (list_definition [] 2)).ret = .ok (-5)
    ∧ (sequence_rw (failing_env 100 (-5))
        (sequence_rw (failing_env 100 (-5)) [] (list_definition [] 2)).world
        (sequence_rw (failing_env 100 (-5)) [] (list_definition [] 2)).definition).ret = .ok 0
    ∧ 1 < sequence_len (sequence_rw (failing_env 100 (-5))
        (sequence_rw (failing_env 100 (-5)) [] (list_definition [] 2)).world
        (sequence_rw (failing_env 100 (-5)) [] (list_definition [] 2)).definition).definition
    ∧ sequence_index (sequence_rw (failing_env 100 (-5))
        (sequence_rw (failing_env 100 (-5)) [] (list_definition [] 2)).world
        (sequence_rw (failing_env 100 (-5)) [] (list_definition [] 2)).definition).definition 1
        = .ok none := by
  refine ⟨rfl, rfl, by decide, rfl⟩

/-- Whatever `definition_new` returns, `NULL` included, is stored in the slot and
handed to `generic_rw`: the status of a pass is the status of that call. -/
theorem sequence_rw_body_calls_generic_rw {σ δ : Type} (env : Env σ δ)
    (d : definition_sequence δ) (i : Nat) (w : σ) (elems : GPtrArray δ) :
    (sequence_rw_body env d i w elems).ret
      = (env.generic_rw (sequence_rw_child env d i w)
          (env.definition_new d.declaration.elem d.p.scope
            (g_quark_from_string (env.str_after_free (g_string_printf_index i)))
            (int_of_uint64 i) none w).2).1 :=
  rfl

/-- C20, evaluated on the code: a definition without children, length `2`, and
an element kind whose `definition_new` returns `NULL` for index `0`.
`sequence_rw` stores the `NULL`, calls `generic_rw` on it, and, that call
returning `0`, goes on to construct and decode the child of index `1`. -/
theorem sequence_rw_null_child_passed_on :
    (sequence_rw (null_child_env 0) [] (list_definition [] 2)).world
      = [rw_call.definition_new int32_declaration
            { definitions := [], scope_path := [some "seq"] } (some "[0]") 0 none,
         rw_call.generic_rw none,
         rw_call.definition_new int32_declaration
            { definitions := [], scope_path := [some "seq"] } (some "[1]") 1 none,
         rw_call.generic_rw (some 101)]
    ∧ (sequence_rw (null_child_env 0) [] (list_definition [] 2)).definition.elems
      = some [none, some 101]
    ∧ (sequence_rw (null_child_env 0) [] (list_definition [] 2)).ret = .ok 0 := by
  refine ⟨by decide, by decide, rfl⟩

/-! ## Properties of `_sequence_definition_free` -/

/-- On a child list without `NULL` slot the loop of lines 197-202 calls
`definition_free` once on each child, in slot order. -/
theorem sequence_definition_free_loop_ok {σ δ : Type} (definition_free : δ → σ → σ)
    (elems : GPtrArray δ) : ∀ (w : σ), all_constructed elems →
    sequence_definition_free_loop definition_free elems w
      = .ok (elems.reduceOption.foldl (fun w1 c => definition_free c w1) w) := by
  induction elems with
  | nil => intro w _; rfl
  | cons x rest ih =>
    intro w hall
    have hrest : all_constructed rest := fun y hy => hall y (List.mem_cons_of_mem x hy)
    cases x with
    | none => exact absurd rfl (hall none (List.mem_cons_self none rest))
    | some c =>
      show sequence_definition_free_loop definition_free rest (definition_free c w) = _
      rw [ih (definition_free c w) hrest, List.reduceOption_cons_of_some]
      rfl

/-- The function `sequence_rw` writes nothing of the definition but the child list. -/
theorem sequence_rw_frame {σ δ : Type} (env : Env σ δ) (pos : σ)
    (d : definition_sequence δ) :
    (sequence_rw env pos d).definition.p = d.p
    ∧ (sequence_rw env pos d).definition.declaration = d.declaration
    ∧ (sequence_rw env pos d).definition.string = d.string := by
  unfold sequence_rw
  cases d.elems <;> exact ⟨rfl, rfl, rfl⟩

/-- When `g_ptr_array_set_size` has made the array longer, the old slots keep
their contents. -/
theorem g_ptr_array_set_size_keeps {δ : Type} (array : GPtrArray δ) (length : Int)
    (h : array.length < (g_ptr_array_set_size array length).length) :
    ∀ j, j < array.length → (g_ptr_array_set_size array length)[j]? = array[j]? := by
  unfold g_ptr_array_set_size at h ⊢
  by_cases hneg : length < 0
  · rw [if_pos hneg] at h
    exact absurd h (Nat.lt_irrefl _)
  · rw [if_neg hneg] at h ⊢
    simp only [List.length_append, List.length_take, List.length_replicate] at h
    have hle : array.length ≤ length.toNat := by omega
    rw [List.take_of_length_le hle]
    intro j hj
    exact List.getElem?_append_left hj

/-- The array `g_ptr_array_set_size` leaves is never longer than the larger of
its previous length and the `uint64_t` length line 53 passes. -/
theorem g_ptr_array_set_size_length_le {δ : Type} (array : GPtrArray δ) (n : Nat) :
    (g_ptr_array_set_size array (int_of_uint64 n)).length ≤ max array.length n := by
  have hmod : n % 4294967296 ≤ n := Nat.mod_le n 4294967296
  have hle : int_of_uint64 n ≤ (n : Int) := by
    unfold int_of_uint64
    split <;> omega
  unfold g_ptr_array_set_size
  by_cases hneg : int_of_uint64 n < 0
  · rw [if_pos hneg]
    exact Nat.le_max_left _ _
  · rw [if_neg hneg]
    simp only [List.length_append, List.length_take, List.length_replicate]
    have : (int_of_uint64 n).toNat ≤ n := by omega
    omega

/-- A call of `sequence_rw` that returns `0`, on a child list without `NULL`
slot and with a dispatcher that does not return `0` on an absent child, leaves a
child list without `NULL` slot. -/
theorem sequence_rw_ok_constructed {σ δ : Type} (env : Env σ δ) (pos : σ)
    (d : definition_sequence δ) (elems : GPtrArray δ)
    (hgen : ∀ w, (env.generic_rw none w).1 ≠ 0)
    (he : d.elems = some elems) (hall : all_constructed elems)
    (hret : (sequence_rw env pos d).ret = .ok 0) :
    ∃ elems1, (sequence_rw env pos d).definition.elems = some elems1
      ∧ all_constructed elems1 := by
  rcases Nat.lt_or_ge elems.length d.length.value_unsigned with hlt | hge
  · rw [sequence_rw_grow env pos d elems he hlt] at hret ⊢
    obtain ⟨hb, hpass⟩ := sequence_rw_loop_ret_zero env d _ _ _ _ hret
    have hbound : elems.length + (d.length.value_unsigned - elems.length)
        ≤ (g_ptr_array_set_size elems (int_of_uint64 d.length.value_unsigned)).length := by
      rcases hb with h0 | hb
      · omega
      · exact hb
    rw [sequence_rw_loop_completes env d _ _ _ _ hbound hpass]
    refine ⟨_, rfl, ?_⟩
    obtain ⟨p1, p2, _, p4⟩ := sequence_rw_passes_slots env d
      (d.length.value_unsigned - elems.length) elems.length pos
      (g_ptr_array_set_size elems (int_of_uint64 d.length.value_unsigned)) hbound
    have g1 := g_ptr_array_set_size_keeps elems (int_of_uint64 d.length.value_unsigned)
      (by omega)
    intro x hx
    obtain ⟨j, hj⟩ := List.mem_iff_getElem?.mp hx
    rcases Nat.lt_or_ge j elems.length with hjC | hjC
    · rw [p2 j hjC, g1 j hjC] at hj
      exact hall x (List.mem_iff_getElem?.mpr ⟨j, hj⟩)
    · rcases Nat.lt_or_ge j d.length.value_unsigned with hjL | hjL
      · obtain ⟨k, rfl⟩ : ∃ k, j = elems.length + k := ⟨j - elems.length, by omega⟩
        have hk : k < d.length.value_unsigned - elems.length := by omega
        rw [p4 k hk] at hj
        have hx2 : x = sequence_rw_child env d (elems.length + k)
            (sequence_rw_passes env d k elems.length pos
              (g_ptr_array_set_size elems (int_of_uint64 d.length.value_unsigned))).1 := by
          injection hj with h
          exact h.symm
        intro hnone
        have hstat := hpass k hk
        rw [sequence_rw_body_calls_generic_rw, ← hx2, hnone] at hstat
        exact hgen _ hstat
      · have hjlen := (List.getElem?_eq_some_iff.mp hj).1
        have hmax := g_ptr_array_set_size_length_le elems d.length.value_unsigned
        rw [p1] at hjlen
        omega
  · rw [sequence_rw_no_pass env pos d elems he hge]
    exact ⟨elems, he, hall⟩

/-- Along a series of calls that all return `0`, with a dispatcher that does not
return `0` on an absent child, the child list never holds a `NULL` slot, and
the base, the declaration, the character buffer and the reference count of the
length field stay as they were. -/
theorem sequence_rw_series_ok_constructed {σ δ : Type} (env : Env σ δ)
    (hgen : ∀ w, (env.generic_rw none w).1 ≠ 0) (Ls : List Nat) :
    ∀ (pos : σ) (d : definition_sequence δ), sequence_rw_series_ok env Ls pos d →
    (∀ elems, d.elems = some elems → all_constructed elems) →
    (∀ elems, (sequence_rw_series env Ls pos d).2.elems = some elems → all_constructed elems)
    ∧ (sequence_rw_series env Ls pos d).2.p = d.p
    ∧ (sequence_rw_series env Ls pos d).2.declaration = d.declaration
    ∧ (sequence_rw_series env Ls pos d).2.string = d.string
    ∧ (sequence_rw_series env Ls pos d).2.length.ref = d.length.ref := by
  induction Ls with
  | nil => intro pos d _ hall; exact ⟨hall, rfl, rfl, rfl, rfl⟩
  | cons L Ls ih =>
    intro pos d hok hall
    obtain ⟨hret, hrest⟩ := hok
    have hslots : ∀ elems, (sequence_rw env pos (with_length d L)).definition.elems
        = some elems → all_constructed elems := by
      intro elems1 h1
      cases he : d.elems with
      | none =>
        rw [sequence_rw_no_child_list env pos (with_length d L) he] at hret
        cases hret
      | some elems =>
        obtain ⟨elems2, h2, hall2⟩ := sequence_rw_ok_constructed env pos (with_length d L)
          elems hgen he (hall elems he) hret
        rw [h2] at h1
        cases h1
        exact hall2
    obtain ⟨i1, i2, i3, i4, i5⟩ := ih _ _ hrest hslots
    obtain ⟨f1, f2, f3⟩ := sequence_rw_frame env pos (with_length d L)
    have f4 := sequence_rw_length env pos (with_length d L)
    refine ⟨i1, ?_, ?_, ?_, ?_⟩
    · exact i2.trans f1
    · exact i3.trans f2
    · exact i4.trans f3
    · refine i5.trans ?_
      rw [f4]
      rfl

/-- On a definition whose child list, if any, has no `NULL` slot,
`_sequence_definition_free` runs to its end. -/
theorem definition_free_of_constructed {σ δ : Type} (definition_free : δ → σ → σ) (w : σ)
    (d : definition_sequence δ)
    (hall : ∀ elems, d.elems = some elems → all_constructed elems) :
    _sequence_definition_free definition_free w d
      = .ok { world := (children_of d.elems).foldl (fun w1 c => definition_free c w1) w
              declaration := { d.declaration with p := declaration_unref d.declaration.p }
              length := definition_unref d.length
              freed_string := d.string
              freed_elems := d.elems
              freed_scope := d.p.scope } := by
  unfold _sequence_definition_free
  cases he : d.elems with
  | none => rfl
  | some elems =>
    simp only [sequence_definition_free_loop_ok definition_free elems w (hall elems he),
      children_of]

/-- Destruction accounting when no slot is `NULL`: for a definition produced by
`_sequence_definition_new` and then taken through `sequence_rw` calls that all
return `0`, the dispatcher not returning `0` on an absent child,
`_sequence_definition_free` runs to its end; it decrements the reference count of
the declaration by exactly `1` and that of the length-field definition by
exactly `1`, calls `definition_free` exactly once on each child of the child
list, in slot order, releases the string buffer if there is one, and frees the
scope of the definition; the two reference counts are then the ones from before
`_sequence_definition_new`. -/
theorem definition_free_accounting {σ δ : Type} (ops : scope_ops) (sequence : Nat)
    (declaration : declaration_sequence) (parent_scope : definition_scope)
    (field_name : GQuark) (index : Int) (root_name : Option String)
    (r : definition_new_result δ) (d0 : definition_sequence δ)
    (env : Env σ δ) (Ls : List Nat) (pos w : σ) (d : definition_sequence δ)
    (definition_free : δ → σ → σ)
    (hr : _sequence_definition_new ops sequence declaration parent_scope field_name
            index root_name = .ok r)
    (hd : r.ret = some d0)
    (hgen : ∀ w1, (env.generic_rw none w1).1 ≠ 0)
    (hok : sequence_rw_series_ok env Ls pos d0)
    (hfin : sequence_rw_series env Ls pos d0 = (w, d)) :
    ∃ res, _sequence_definition_free definition_free w d = .ok res
      ∧ res.declaration.p.ref = d.declaration.p.ref - 1
      ∧ res.declaration.p.ref = declaration.p.ref
      ∧ res.length.ref = d.length.ref - 1
      ∧ (∃ l, resolved_length ops sequence declaration parent_scope field_name root_name
            = some l ∧ res.length.ref = l.ref)
      ∧ res.world = (children_of d.elems).foldl (fun w1 c => definition_free c w1) w
      ∧ res.freed_string = d.string
      ∧ res.freed_elems = d.elems
      ∧ res.freed_scope = d.p.scope
      ∧ d.p.scope = d0.p.scope := by
  obtain ⟨l, _, hl, _, hlen, _, he0, _, _, hdecl⟩ := definition_new_returned ops sequence
    declaration parent_scope field_name index root_name r d0 hr hd
  have hall0 : ∀ elems, d0.elems = some elems → all_constructed elems := by
    intro elems h
    rcases sequence_storage_elems_empty (δ := δ) declaration.elem with h1 | h1
    · rw [he0, h1] at h
      cases h
    · rw [he0, h1] at h
      cases h
      intro x hx
      cases hx
  obtain ⟨i1, i2, i3, _, i5⟩ := sequence_rw_series_ok_constructed env hgen Ls pos d0 hok hall0
  rw [hfin] at i1 i2 i3 i5
  simp only at i1 i2 i3 i5
  refine ⟨_, definition_free_of_constructed definition_free w d i1, rfl, ?_, rfl, ?_, rfl, rfl,
    rfl, rfl, ?_⟩
  · show (declaration_unref d.declaration.p).ref = declaration.p.ref
    rw [i3, hdecl]
    simp [declaration_unref, declaration_ref]
  · refine ⟨l, hl, ?_⟩
    show (definition_unref d.length).ref = l.ref
    simp only [definition_unref]
    rw [i5, hlen]
    simp [definition_ref]
  · rw [i2]

/-- A run of the destruction accounting: construction over 32-bit integers
(declaration count `1`, length-field count `1`), `sequence_rw` with lengths `2`
and then `1`, then `_sequence_definition_free`: both counts are back to `1` and
the last two calls recorded are `definition_free` on the children `100` and `101`. -/
theorem definition_free_accounting_run :
    ∃ (r : definition_new_result Nat) (d0 : definition_sequence Nat)
      (res : definition_free_result (List rw_call) Nat),
      _sequence_definition_new (example_ops (some (length_field 0))) 4096
        (example_declaration int32_declaration) empty_scope (some "seq") 0 none = .ok r
      ∧ r.ret = some d0
      ∧ sequence_rw_series_ok strict_env [2, 1] [] d0
      ∧ _sequence_definition_free trace_definition_free
          (sequence_rw_series strict_env [2, 1] [] d0).1
          (sequence_rw_series strict_env [2, 1] [] d0).2 = .ok res
      ∧ res.declaration.p.ref = 1
      ∧ res.length.ref = 1
      ∧ res.world.drop 4
          = [rw_call.definition_free 100, rw_call.definition_free 101] := by
  obtain ⟨res, h1, _, h3, _, ⟨l, hl, h5⟩, h6, _⟩ :=
    definition_free_accounting (example_ops (some (length_field 0))) 4096
      (example_declaration int32_declaration) empty_scope (some "seq") 0 none _ _
      strict_env [2, 1] [] _ _ trace_definition_free rfl rfl
      (fun _ => show (-14 : Int) ≠ 0 by decide)
      ⟨rfl, rfl, trivial⟩ rfl
  refine ⟨_, _, res, rfl, rfl, ⟨rfl, rfl, trivial⟩, h1, h3, ?_, ?_⟩
  · cases hl
    exact h5
  · rw [h6]
    decide

end Babeltrace
